import Mathlib

/-!
# ADIOS2: transport manager (DataMan), SSC reader and inline reader

A shallow embedding of
* `source/adios2/toolkit/transportman/dataman/DataMan.cpp`
* `source/adios2/engine/ssc/SscReader.cpp`
* `source/adios2/engine/inline/InlineReader.cpp` (`BeginStep`, `CurrentStep`)

C++ objects become records, member functions become functions from the
object state to the new state; a `throw` is reported in the `Status` next to
the state the object is left in.
-/

namespace adios2

/-! ## Shared vocabulary -/

/-- The exceptions the embedded code throws, one constructor per C++ type. -/
inductive Exn where
  /-- A string literal thrown as is: `throw("...")`. -/
  | c_string (what : String)
  | invalid_argument (what : String)
  | out_of_range (what : String)
  | runtime_error (what : String)
  /-- The exception nlohmann::json raises on a conversion to the wrong type. -/
  | json_type_error
  /-- The exception nlohmann::json raises for `key()` on a non-object iterator. -/
  | json_invalid_iterator
  /-- Whatever an external collaborator (a WAN transport) throws. -/
  | external (what : String)
  deriving DecidableEq, Repr

/-- How a call ended: it returned, it threw, or it ran into behaviour the C++
standard leaves undefined (an out-of-bounds `operator[]`, a call through a
null pointer, signed overflow). -/
inductive Status where
  | ok
  | raised (e : Exn)
  | undefined
  deriving DecidableEq, Repr

/-- The open mode of `adios2::Mode` (ADIOSTypes.h). -/
inductive Mode where
  | Undefined
  | Write
  | Read
  | Append
  deriving DecidableEq, Repr

/-- One `char`. -/
abbrev Byte := Fin 256

/-- A `std::vector<char>`. -/
abbrev Buffer := List Byte

/-- A `std::shared_ptr<std::vector<char>>`; `none` is `nullptr`. -/
abbrev BufferPtr := Option Buffer

/-- The `Params` of ADIOS2: `std::map<std::string, std::string>`. -/
abbrev Params := List (String × String)

/-- The `params.find(key)` of a `Params`; `none` is `params.end()`. -/
def Params.find (params : Params) (key : String) : Option String :=
  (List.find? (fun kv => kv.1 == key) params).map Prod.snd

namespace transportman

/-! ## The external WAN transport -/

/-- The state of one `Transport` object (a `transport::WANZmq`), an external
collaborator: what it was constructed with, what `Open` was called with and
every `Write(data, size)` it has received, oldest first. -/
structure Transport where
  ip : String
  port : String
  transportMode : String
  debugMode : Bool
  name : String
  openMode : Mode
  written : List (Buffer × Nat)
  deriving DecidableEq, Repr

/-- The call `transport->Write(data, size)`. -/
def Transport.Write (t : Transport) (data : Buffer) (size : Nat) : Transport :=
  { t with written := t.written ++ [(data, size)] }

/-! ## DataMan -/

/-- The members of `DataMan` (with those it inherits from `TransportMan`).
A `std::shared_ptr<Transport>` is an index into `heap`, the transports
allocated by `std::make_shared`; a `std::thread` is represented by the
transport pointer its task was started with. -/
structure DataMan where
  m_DebugMode : Bool
  m_DefaultLibrary : String
  m_DefaultTransportMode : String
  m_MaxReceiveBuffer : Nat
  m_CurrentTransport : Nat
  heap : List Transport
  m_Transports : List (Nat × Nat)
  m_ReadThreads : List Nat
  m_WriteThreads : List Nat
  m_Reading : Bool
  m_Writing : Bool
  m_BufferQueue : List BufferPtr
  deriving DecidableEq, Repr

/-- The state a member function leaves the manager in, and how it ended. -/
structure Outcome where
  state : DataMan
  status : Status
  deriving DecidableEq, Repr

/-- `DataMan::PushBufferQueue`: `m_BufferQueue.push(v)`. -/
def DataMan.PushBufferQueue (dm : DataMan) (v : BufferPtr) : DataMan :=
  { dm with m_BufferQueue := dm.m_BufferQueue ++ [v] }

/-- `DataMan::PopBufferQueue`: the front element and the queue without it
when the queue has an element, `nullptr` and the same queue otherwise. -/
def DataMan.PopBufferQueue (dm : DataMan) : BufferPtr × DataMan :=
  if dm.m_BufferQueue.length > 0 then
    match dm.m_BufferQueue with
    | vec :: rest => (vec, { dm with m_BufferQueue := rest })
    | [] => (none, dm)
  else
    (none, dm)

/-- `DataMan::ReadWAN`. -/
def DataMan.ReadWAN (dm : DataMan) : BufferPtr × DataMan :=
  dm.PopBufferQueue

/-- `DataMan::WriteWAN(std::shared_ptr<std::vector<char>>)`, the enqueue path. -/
def DataMan.WriteWAN_ptr (dm : DataMan) (buffer : BufferPtr) : DataMan :=
  dm.PushBufferQueue buffer

/-- The `m_Transports.find(key)` of the transport map. -/
def DataMan.findTransport (dm : DataMan) (key : Nat) : Option Nat :=
  (List.find? (fun kv => kv.1 == key) dm.m_Transports).map Prod.snd

/-- `DataMan::WriteWAN(const std::vector<char> &)`, the direct path.
`m_Transports[m_CurrentTransport]` on a key that is not in the map yields a
null pointer, and the call through it is undefined. -/
def DataMan.WriteWAN_vector (dm : DataMan) (buffer : Buffer) : Outcome :=
  if dm.m_CurrentTransport ≥ dm.m_Transports.length then
    ⟨dm, Status.raised (Exn.runtime_error
      "ERROR: No valid transports found, from DataMan::WriteWAN()")⟩
  else
    match dm.findTransport dm.m_CurrentTransport with
    | some p =>
      match dm.heap[p]? with
      | some t => ⟨{ dm with heap := dm.heap.set p (t.Write buffer buffer.length) }, Status.ok⟩
      | none => ⟨dm, Status.undefined⟩
    | none => ⟨dm, Status.undefined⟩

/-! ### Opening the channels -/

/-- What `OpenWANTransports` takes from outside this translation unit: the
build flag `ADIOS2_HAVE_ZEROMQ`, the results of `MPI_Comm_rank` and
`MPI_Comm_size` on `m_MPIComm`, the default argument that the declaration of
`GetStringParameter` (DataMan.h) gives `default_value`, and the transport's
`Open(name, mode)`, which returns (`none`) or throws. -/
structure Env where
  haveZeroMQ : Bool
  mpiRank : Int
  mpiSize : Int
  default_value : String
  Open : Transport → String → Mode → Option Exn

/-- `DataMan::GetStringParameter`: whether the key was found, and the value
stored through the reference. -/
def GetStringParameter (params : Params) (key : String) (default_value : String) :
    Bool × String :=
  match params.find key with
  | some second => (true, second)
  | none => (false, default_value)

/-- The `isspace` of the C locale. -/
def isspace (c : Char) : Bool :=
  c.toNat = 32 || (9 ≤ c.toNat && c.toNat ≤ 13)

/-- The base-10 `std::stoi`: skip white space, take an optional sign and the
longest run of digits; `std::invalid_argument` when there is no digit,
`std::out_of_range` when the value does not fit an `int`. -/
def stoi (str : String) : Except Exn Int :=
  let s := str.toList.dropWhile isspace
  let negative := s.head? == some '-'
  let s := if s.head? == some '-' || s.head? == some '+' then s.tail else s
  let digits := s.takeWhile Char.isDigit
  if digits.isEmpty then
    Except.error (Exn.invalid_argument "stoi")
  else
    let magnitude : Nat := digits.foldl (fun acc c => 10 * acc + (c.toNat - 48)) 0
    let value : Int := if negative then -(magnitude : Int) else (magnitude : Int)
    if value < -2147483648 || 2147483647 < value then
      Except.error (Exn.out_of_range "stoi")
    else
      Except.ok value

/-- The call `m_Transports.emplace(key, ptr)`: no effect when the key is
already in the map. -/
def DataMan.emplaceTransport (dm : DataMan) (key ptr : Nat) : DataMan :=
  if (dm.findTransport key).isSome then dm
  else { dm with m_Transports := dm.m_Transports ++ [(key, ptr)] }

/-- The library tags for which `OpenWANTransports` creates a channel. -/
def isZmq (library : String) : Bool :=
  library == "zmq" || library == "ZMQ"

/-- The `#ifdef ADIOS2_HAVE_ZEROMQ` branch of the loop body: create the
transport, open it, register it under key `i` and start its task. -/
def DataMan.openZmq (env : Env) (dm : DataMan) (i : Nat) (name : String) (mode : Mode)
    (ip port transportMode : String) : Outcome :=
  let wanTransport : Transport :=
    { ip := ip, port := port, transportMode := transportMode, debugMode := dm.m_DebugMode,
      name := "", openMode := Mode.Undefined, written := [] }
  match env.Open wanTransport name mode with
  | some e => ⟨dm, Status.raised e⟩
  | none =>
    let ptr := dm.heap.length
    let dm1 := { dm with heap := dm.heap ++ [{ wanTransport with name := name, openMode := mode }] }
    let dm2 := dm1.emplaceTransport i ptr
    if mode = Mode.Read then
      ⟨{ dm2 with m_Reading := true, m_ReadThreads := dm2.m_ReadThreads ++ [ptr] }, Status.ok⟩
    else if mode = Mode.Write then
      ⟨{ dm2 with m_Writing := true, m_WriteThreads := dm2.m_WriteThreads ++ [ptr] }, Status.ok⟩
    else
      ⟨dm2, Status.ok⟩

/-- One iteration of the loop of `OpenWANTransports`, for index `i` and
`streamNames[i] = name`. `paramsVector[i]` past the end of the vector is
undefined, and so is an overflow of the `int` sum `stoi(port) + mpiRank`. -/
def DataMan.openChannel (env : Env) (mode : Mode) (paramsVector : List Params)
    (dm : DataMan) (i : Nat) (name : String) : Outcome :=
  match paramsVector[i]? with
  | none => ⟨dm, Status.undefined⟩
  | some params =>
    let library := (GetStringParameter params "Library" dm.m_DefaultLibrary).2
    let ip := (GetStringParameter params "IPAddress" env.default_value).2
    let port := (GetStringParameter params "Port" env.default_value).2
    let transportMode :=
      (GetStringParameter params "TransportMode" dm.m_DefaultTransportMode).2
    -- Calculate port number
    let port1 : Except Exn String :=
      if port.isEmpty then
        match stoi port with
        | Except.error e => Except.error e
        | Except.ok v =>
          Except.ok (toString (((v + (i : Int) * env.mpiSize) % (2 ^ 64 : Int)).toNat))
      else Except.ok port
    match port1 with
    | Except.error e => ⟨dm, Status.raised e⟩
    | Except.ok port1 =>
      match stoi port1 with
      | Except.error e => ⟨dm, Status.raised e⟩
      | Except.ok v =>
        if v + env.mpiRank < -2147483648 || 2147483647 < v + env.mpiRank then
          ⟨dm, Status.undefined⟩
        else
          let port2 := toString (v + env.mpiRank)
          -- Create transports
          if isZmq library then
            if env.haveZeroMQ then
              dm.openZmq env i name mode ip port2 transportMode
            else
              ⟨dm, Status.raised (Exn.invalid_argument
                ("ERROR: this version of ADIOS2 didn\x27t compile with " ++
                  "ZMQ library, in call to Open\n"))⟩
          else if dm.m_DebugMode then
            ⟨dm, Status.raised (Exn.invalid_argument
              ("ERROR: wan transport " ++ library ++ " not supported or not " ++
                "provided in IO AddTransport, " ++ "in call to Open\n"))⟩
          else
            ⟨dm, Status.ok⟩

/-- The loop `for (size_t i = 0; i < streamNames.size(); ++i)`, entered at
index `i` with the stream names from `i` on still to do; a throw (or
undefined behaviour) ends it. -/
def DataMan.openLoop (env : Env) (mode : Mode) (paramsVector : List Params) :
    Nat → List String → DataMan → Outcome
  | _, [], dm => ⟨dm, Status.ok⟩
  | i, name :: rest, dm =>
    match dm.openChannel env mode paramsVector i name with
    | ⟨dm1, Status.ok⟩ => DataMan.openLoop env mode paramsVector (i + 1) rest dm1
    | stopped => stopped

/-- `DataMan::OpenWANTransports`. -/
def DataMan.OpenWANTransports (env : Env) (dm : DataMan) (streamNames : List String)
    (mode : Mode) (paramsVector : List Params) (_profile : Bool) : Outcome :=
  if streamNames.length = 0 then
    ⟨dm, Status.raised (Exn.c_string "No streams to open from DataMan::OpenWANTransports")⟩
  else
    DataMan.openLoop env mode paramsVector 0 streamNames dm

/-! ### Vocabulary for statements about the loop -/

/-- What the part of the loop body under "Calculate port number" comes to
for a port string: the text of `stoi(port) + mpiRank`, the exception
`stoi` throws, or the overflow of the `int` sum. -/
inductive PortResult where
  | number (port : String)
  | raised (e : Exn)
  | overflow
  deriving DecidableEq, Repr

/-- The part of the loop body under "Calculate port number" (the two
statements on `port`), for the channel of index `i`. -/
def calculatePort (env : Env) (i : Nat) (port : String) : PortResult :=
  let port1 : Except Exn String :=
    if port.isEmpty then
      match stoi port with
      | Except.error e => Except.error e
      | Except.ok v =>
        Except.ok (toString (((v + (i : Int) * env.mpiSize) % (2 ^ 64 : Int)).toNat))
    else Except.ok port
  match port1 with
  | Except.error e => PortResult.raised e
  | Except.ok port1 =>
    match stoi port1 with
    | Except.error e => PortResult.raised e
    | Except.ok v =>
      if v + env.mpiRank < -2147483648 || 2147483647 < v + env.mpiRank then
        PortResult.overflow
      else
        PortResult.number (toString (v + env.mpiRank))

/-- The exception thrown in debug mode for a library that is not supported. -/
def unsupportedLibrary (library : String) : Exn :=
  Exn.invalid_argument
    ("ERROR: wan transport " ++ library ++ " not supported or not " ++
      "provided in IO AddTransport, " ++ "in call to Open\n")

/-- The call `transport->Write(data, size)` through the pointer `transport`. -/
def DataMan.transportWrite (dm : DataMan) (transport : Nat) (data : Buffer) (size : Nat) :
    DataMan :=
  match dm.heap[transport]? with
  | some t => { dm with heap := dm.heap.set transport (t.Write data size) }
  | none => dm

/-- The body of the loop of `DataMan::WriteThread`. -/
def DataMan.WriteThreadBody (dm : DataMan) (transport : Nat) : DataMan :=
  let popped := dm.PopBufferQueue
  match popped.1 with
  | some buffer =>
    if buffer.length > 0 then popped.2.transportWrite transport buffer buffer.length
    else popped.2
  | none => popped.2

/-- `DataMan::WriteThread`, run for at most `fuel` iterations of
`while (m_Writing)`. -/
def DataMan.WriteThread : Nat → DataMan → Nat → DataMan
  | 0, dm, _ => dm
  | fuel + 1, dm, transport =>
    if dm.m_Writing then DataMan.WriteThread fuel (dm.WriteThreadBody transport) transport
    else dm

/-- The enqueue-path `WriteWAN` called once per pointer of the list. -/
def DataMan.WriteWAN_all (dm : DataMan) (buffers : List BufferPtr) : DataMan :=
  buffers.foldl DataMan.WriteWAN_ptr dm

/-- The `Write` calls the write task issues for a run of queued pointers: one
per non-null, non-empty buffer, with its data and its size. -/
def writesOf (queue : List BufferPtr) : List (Buffer × Nat) :=
  queue.filterMap (fun v =>
    match v with
    | some buffer => if buffer.length > 0 then some (buffer, buffer.length) else none
    | none => none)

/-! ### The read task -/

/-- The buffer after `transport->IRead(buffer.data(), m_MaxReceiveBuffer,
status)` has stored the bytes `received` at its start; `status.Bytes` is
their number. -/
def afterIRead (buffer received : Buffer) : Buffer :=
  received ++ buffer.drop received.length

/-- The body of the loop of `DataMan::ReadThread`, with the local `buffer`
and the bytes the `IRead` of this iteration receives. A transport that
stores more bytes than the buffer holds writes past its end, which is
undefined. The result is the manager, how the iteration ended, and the
buffer. -/
def DataMan.ReadThreadBody (dm : DataMan) (buffer received : Buffer) : Outcome × Buffer :=
  if received.length > buffer.length then
    (⟨dm, Status.undefined⟩, buffer)
  else
    let buffer1 := afterIRead buffer received
    let Bytes := received.length
    if Bytes > 0 then
      let bufferQ : Buffer := buffer1.take Bytes
      (⟨dm.PushBufferQueue (some bufferQ), Status.ok⟩, buffer1)
    else
      (⟨dm, Status.ok⟩, buffer1)

/-- The loop `while (m_Reading)` of `DataMan::ReadThread` over the results
of the successive `IRead` calls on its channel; it is followed for as long
as results are given. -/
def DataMan.ReadThreadLoop : List Buffer → DataMan → Buffer → Outcome
  | [], dm, _ => ⟨dm, Status.ok⟩
  | received :: later, dm, buffer =>
    if dm.m_Reading then
      match dm.ReadThreadBody buffer received with
      | (⟨dm1, Status.ok⟩, buffer1) => DataMan.ReadThreadLoop later dm1 buffer1
      | (stopped, _) => stopped
    else
      ⟨dm, Status.ok⟩

/-- `DataMan::ReadThread` on a channel that delivers `reads`: the loop is
entered with a buffer of `m_MaxReceiveBuffer` zero bytes. -/
def DataMan.ReadThread (dm : DataMan) (reads : List Buffer) : Outcome :=
  DataMan.ReadThreadLoop reads dm (List.replicate dm.m_MaxReceiveBuffer 0)

/-- The buffers the read task is to push for a run of reads: the reads that
received more than zero bytes, in order. -/
def pushesOf (reads : List Buffer) : List BufferPtr :=
  (reads.filter (fun received => received.length > 0)).map some

/-! ### A run of queue operations -/

/-- One call on the buffer queue. -/
inductive QueueOp where
  | Push (v : BufferPtr)
  | Pop
  deriving DecidableEq, Repr

/-- The pointers handed to `PushBufferQueue` by a run, in call order. -/
def pushed : List QueueOp → List BufferPtr
  | [] => []
  | QueueOp.Push v :: ops => v :: pushed ops
  | QueueOp.Pop :: ops => pushed ops

/-- Apply the calls one after another; the result is what the calls to
`PopBufferQueue` returned, in call order, and the final manager. -/
def runQueueOps : List QueueOp → DataMan → List BufferPtr × DataMan
  | [], dm => ([], dm)
  | QueueOp.Push v :: ops, dm => runQueueOps ops (dm.PushBufferQueue v)
  | QueueOp.Pop :: ops, dm =>
    let r := dm.PopBufferQueue
    let rs := runQueueOps ops r.2
    (r.1 :: rs.1, rs.2)

/-- The pops that returned a buffer (not `nullptr`). -/
def successful (rets : List BufferPtr) : List BufferPtr :=
  rets.filter Option.isSome

/-- A manager on which nothing has been opened or queued yet. The defaults
that DataMan.h declares are not part of DataMan.cpp; the values here are
examples. -/
def DataMan.idle (debugMode : Bool) : DataMan :=
  { m_DebugMode := debugMode, m_DefaultLibrary := "zmq", m_DefaultTransportMode := "broadcast",
    m_MaxReceiveBuffer := 1024, m_CurrentTransport := 0, heap := [], m_Transports := [],
    m_ReadThreads := [], m_WriteThreads := [], m_Reading := false, m_Writing := false,
    m_BufferQueue := [] }

/-- A build with ZeroMQ, rank 0 of 1, the empty string as the declared
default of `default_value`, and transports whose `Open` succeeds. -/
def Env.sample : Env :=
  { haveZeroMQ := true, mpiRank := 0, mpiSize := 1, default_value := "",
    Open := fun _ _ _ => none }

/-- A channel configuration with every parameter set, on port 12306. -/
def sampleParams (library : String) : Params :=
  [("Library", library), ("IPAddress", "127.0.0.1"), ("Port", "12306")]

/-- The manager after one zmq channel has been opened for write. -/
def oneWriteChannel : DataMan :=
  ((DataMan.idle false).OpenWANTransports Env.sample ["s0"] Mode.Write [sampleParams "zmq"]
    false).state

/-- The manager after one zmq channel has been opened for read, with a
receive buffer of eight bytes. -/
def oneReadChannel : DataMan :=
  ({ DataMan.idle false with m_MaxReceiveBuffer := 8 }.OpenWANTransports Env.sample ["s0"]
    Mode.Read [sampleParams "zmq"] false).state

/-- The manager after a call of OpenWANTransports, without the debug flag, on
two channels of which the first asks for an unsupported library. -/
def skippedFirst : DataMan :=
  ((DataMan.idle false).OpenWANTransports Env.sample ["s0", "s1"] Mode.Write
    [sampleParams "mdtm", sampleParams "zmq"] false).state

/-- A sample run: two pushes, three pops, a push of an empty buffer. -/
def sampleRun : List QueueOp :=
  [QueueOp.Push (some [1, 2]), QueueOp.Push (some [3]), QueueOp.Pop, QueueOp.Pop, QueueOp.Pop,
    QueueOp.Push (some [])]

end transportman

namespace core
namespace engine

/-! ## SscReader -/

/-- A `Dims`: `std::vector<size_t>`. -/
abbrev Dims := List Nat

/-- A parsed `nlohmann::json` value. An object lists its members in
iteration order; floating-point numbers are not represented. -/
inductive Json where
  | null
  | boolean (b : Bool)
  | number (n : Int)
  | string (s : String)
  | array (elements : List Json)
  | object (members : List (String × Json))

/-- The `j.find(key)` of nlohmann::json: the member of an object under the
key; `none` is `end()`, which is also the result on a value that is not an
object. -/
def Json.find : Json → String → Option Json
  | Json.object members, key => (List.find? (fun kv => kv.1 == key) members).map Prod.snd
  | _, _ => none

/-- The iteration `for (it = j.begin(); it != j.end(); ++it)`: per step the
key, when `it.key()` is defined, and `it.value()`. An object yields its
members, an array its elements, null nothing and any other value itself. -/
def Json.items : Json → List (Option String × Json)
  | Json.object members => members.map (fun kv => (some kv.1, kv.2))
  | Json.array elements => elements.map (fun v => (none, v))
  | Json.null => []
  | Json.boolean b => [(none, Json.boolean b)]
  | Json.number n => [(none, Json.number n)]
  | Json.string s => [(none, Json.string s)]

/-- The conversion of a json value to `std::string`; `none` stands for the
type error it throws on anything but a string. -/
def Json.get_string : Json → Option String
  | Json.string s => some s
  | _ => none

/-- What the reader takes from `adios2::helper` and ADIOSMacros.h, which are
not among the sources at hand: `helper::StringToDims` (`none` when it
throws), and the tags `helper::GetType<T>()` of the types that
`ADIOS2_FOREACH_STDTYPE_1ARG` enumerates, in its order. -/
structure Helper where
  StringToDims : String → Option Dims
  stdTypes : List String

/-- The arguments of one `DefineVariable<T>(name, shape, start, count)`,
with the tag of `T`. -/
structure VariableDefinition where
  name : String
  type : String
  shape : Dims
  start : Dims
  count : Dims
  deriving DecidableEq, Repr

/-- The part of `core::IO` the reader uses: the variables defined in it. -/
abbrev Catalog := List VariableDefinition

/-- Modelled from the spec: `IO::DefineVariable<T>` is not among the sources
at hand; it registers the variable name in the local catalog for lookup. -/
def Catalog.DefineVariable (io : Catalog) (type name : String) (shape start count : Dims) :
    Catalog :=
  io ++ [{ name := name, type := type, shape := shape, start := start, count := count }]

/-- An element of `m_LocalRequestMap`; a fresh one has every member empty. -/
structure Request where
  type : String
  shape : Dims
  start : Dims
  count : Dims
  deriving DecidableEq, Repr

/-- The assignment `map[key].member = ...` on a `std::map` kept in key order
(keys compare as their character sequences): `operator[]` inserts a fresh
element when the key is new. -/
def requestMapUpdate (f : Request → Request) (key : String) :
    List (String × Request) → List (String × Request)
  | [] => [(key, f ⟨"", [], [], []⟩)]
  | (k, r) :: rest =>
    if k = key then (k, f r) :: rest
    else if key.toList < k.toList then (key, f ⟨"", [], [], []⟩) :: (k, r) :: rest
    else (k, r) :: requestMapUpdate f key rest

/-- The members of `SscReader` the embedded functions read or write. -/
structure SscReader where
  m_WorldRank : Int
  m_ReaderRank : Int
  m_ReaderSize : Int
  m_ReaderMasterWorldRank : Int
  m_WriterMasterWorldRank : Int
  m_InitialStep : Bool
  m_CurrentStep : Int
  m_LocalRequestMap : List (String × Request)
  m_LocalRequestJsonString : String
  m_IO : Catalog
  deriving DecidableEq, Repr

/-- The state a member function leaves the reader in, and how it ended. -/
structure ReaderOutcome where
  state : SscReader
  status : Status
  deriving DecidableEq, Repr

/-! ### SyncRank -/

/-- The two send buffers of `SscReader::SyncRank`: `readerMasterWorldRank`
and `writerMasterWorldRank` as they stand before the reductions. -/
def SscReader.SyncRank_send (r : SscReader) : Int × Int :=
  (if r.m_ReaderRank = 0 then r.m_WorldRank else 0, 0)

/-- `MPI_Allreduce` of one `int` with `MPI_MAX`: every participant receives
the maximum of the values sent by all participants. -/
def MPI_Allreduce_MAX : List Int → Int
  | [] => 0
  | x :: xs => xs.foldl max x

/-- `SscReader::SyncRank` on one process, given the send buffers of all the
participants of `MPI_COMM_WORLD` (its own among them). -/
def SscReader.SyncRank (sends : List (Int × Int)) (r : SscReader) : SscReader :=
  { r with
    m_ReaderMasterWorldRank := MPI_Allreduce_MAX (sends.map Prod.fst),
    m_WriterMasterWorldRank := MPI_Allreduce_MAX (sends.map Prod.snd) }

/-- The processes of `MPI_COMM_WORLD`: the reader processes, and the send
buffers of the other participants of the two reductions, whose code is not
among the sources at hand. -/
structure World where
  readers : List SscReader
  peers : List (Int × Int)

/-- The send buffers of all participants. -/
def World.sends (w : World) : List (Int × Int) :=
  w.readers.map SscReader.SyncRank_send ++ w.peers

/-- Every reader process runs `SyncRank`. -/
def World.SyncRank (w : World) : List SscReader :=
  w.readers.map (SscReader.SyncRank w.sends)

/-! ### DeserializeMetadata -/

/-- The `std::runtime_error("metadata corrupted")`. -/
def metadataCorrupted : Exn := Exn.runtime_error "metadata corrupted"

/-- The `std::runtime_error("unknown data type")`. -/
def unknownDataType : Exn := Exn.runtime_error "unknown data type"

/-- The body of the loop over the variables of `DeserializeMetadata`, for an
iterator with the given key and value. -/
def SscReader.deserializeVariable (h : Helper) (r : SscReader) (key : Option String)
    (value : Json) : ReaderOutcome :=
  match value.find "S" with
  | none => ⟨r, Status.raised metadataCorrupted⟩
  | some itS =>
    match itS.get_string with
    | none => ⟨r, Status.raised Exn.json_type_error⟩
    | some shapeStr =>
      match value.find "T" with
      | none => ⟨r, Status.raised metadataCorrupted⟩
      | some itT =>
        match itT.get_string with
        | none => ⟨r, Status.raised Exn.json_type_error⟩
        | some type =>
          match h.StringToDims shapeStr with
          | none => ⟨r, Status.raised metadataCorrupted⟩
          | some shape =>
            if type.isEmpty then
              ⟨r, Status.raised unknownDataType⟩
            else if h.stdTypes.contains type then
              match key with
              | none => ⟨r, Status.raised Exn.json_invalid_iterator⟩
              | some name =>
                ⟨{ r with
                    m_IO := Catalog.DefineVariable r.m_IO type name shape
                      (List.replicate shape.length 0) shape,
                    m_LocalRequestMap :=
                      requestMapUpdate (fun q => { q with type := type }) name
                        (requestMapUpdate (fun q => { q with shape := shape }) name
                          r.m_LocalRequestMap) },
                  Status.ok⟩
            else
              ⟨r, Status.raised unknownDataType⟩

/-- The loop over the variables; a throw ends it. -/
def SscReader.deserializeLoop (h : Helper) :
    List (Option String × Json) → SscReader → ReaderOutcome
  | [], r => ⟨r, Status.ok⟩
  | (key, value) :: rest, r =>
    match r.deserializeVariable h key value with
    | ⟨r1, Status.ok⟩ => SscReader.deserializeLoop h rest r1
    | stopped => stopped

/-- `SscReader::DeserializeMetadata`, from the parsed metadata `j` on. -/
def SscReader.DeserializeMetadata (h : Helper) (r : SscReader) (j : Json) : ReaderOutcome :=
  match j.find "V" with
  | none => ⟨r, Status.ok⟩
  | some itAV => SscReader.deserializeLoop h itAV.items r

/-! ## InlineReader -/

/-- The `StepStatus` of ADIOS2 (ADIOSTypes.h). -/
inductive StepStatus where
  | OK
  | NotReady
  | EndOfStream
  | OtherError
  deriving DecidableEq, Repr

/-- The value of a `size_t` converted to a signed integer type of `bits`
bits. -/
def toSigned (bits : Nat) (u : Nat) : Int :=
  if (u : Int) % 2 ^ bits < 2 ^ (bits - 1) then (u : Int) % 2 ^ bits
  else (u : Int) % 2 ^ bits - 2 ^ bits

/-- The value of a signed integer converted to `size_t`. -/
def toSizeT (s : Int) : Nat :=
  (s % 2 ^ 64).toNat

/-- Modelled from the spec: `InlineWriter` is not among the sources at hand;
it owns the authoritative step counter, a signed integer whose value -1
means that there is no further step. -/
structure InlineWriter where
  m_CurrentStep : Int
  deriving DecidableEq, Repr

/-- Modelled from the spec: `InlineWriter::CurrentStep()` is a pure read of
the producer's counter, returned as the `size_t` of the `Engine` interface. -/
def InlineWriter.CurrentStep (writer : InlineWriter) : Nat :=
  toSizeT writer.m_CurrentStep

/-- The members of `InlineReader` that `BeginStep` reads or writes. -/
structure InlineReader where
  m_CurrentStep : Int
  m_ReaderRank : Int
  m_Verbosity : Int
  deriving DecidableEq, Repr

/-- `InlineReader::BeginStep`, with the writer that
`m_IO.GetEngine(m_WriterID)` yields: the reader after the call and the
status returned. `m_CurrentStep` is declared in InlineReader.h; `bits` is
the width of its signed integer type (32 for `int`, 64 for `int64_t`). -/
def InlineReader.BeginStep (bits : Nat) (r : InlineReader) (writer : InlineWriter) :
    InlineReader × StepStatus :=
  let r1 := { r with m_CurrentStep := toSigned bits writer.CurrentStep }
  if r1.m_CurrentStep = -1 then
    (r1, StepStatus.EndOfStream)
  else
    (r1, StepStatus.OK)

/-- `InlineReader::CurrentStep`. -/
def InlineReader.CurrentStep (_r : InlineReader) (writer : InlineWriter) : Nat :=
  writer.CurrentStep

/-! ### The request exchange -/

/-- Modelled from the spec: `IO::InquireVariable<T>` is not among the sources
at hand; it yields the variable currently bound to the name in the catalog,
with the type `T`, or a null pointer (`none`) when there is none. -/
def Catalog.InquireVariable (io : Catalog) (type name : String) : Option VariableDefinition :=
  List.find? (fun v => v.name == name && v.type == type) io

/-- The body of the first loop of `SerializeRequests` on one element of the
request map; `none` stands for the throw of "unknown data type". -/
def serializeVariable (h : Helper) (io : Catalog) (var : String × Request) :
    Option (String × Request) :=
  if var.2.type.isEmpty then
    none
  else if h.stdTypes.contains var.2.type then
    match io.InquireVariable var.2.type var.1 with
    | some v => some (var.1, { var.2 with count := v.count, start := v.start })
    | none => some var
  else
    none

/-- The first loop of `SerializeRequests`, which updates the elements of the
map in place: the map it leaves, and how it ended. -/
def serializeLoop (h : Helper) (io : Catalog) :
    List (String × Request) → List (String × Request) × Status
  | [] => ([], Status.ok)
  | var :: rest =>
    match serializeVariable h io var with
    | none => (var :: rest, Status.raised unknownDataType)
    | some var1 => ((var1 :: (serializeLoop h io rest).1), (serializeLoop h io rest).2)

/-- `SscReader::SerializeRequests`. The second loop and `j.dump()` build the
text of the request map with nlohmann::json; `dump` is that text as a
function of the map. -/
def SscReader.SerializeRequests (h : Helper) (dump : List (String × Request) → String)
    (r : SscReader) : ReaderOutcome :=
  match serializeLoop h r.m_IO r.m_LocalRequestMap with
  | (requests, Status.ok) =>
    ⟨{ r with m_LocalRequestMap := requests, m_LocalRequestJsonString := dump requests },
      Status.ok⟩
  | (requests, stopped) => ⟨{ r with m_LocalRequestMap := requests }, stopped⟩

/-- The call `str.resize(n)` of `std::string`: the first `n` characters,
padded with null characters. -/
def resize (str : String) (n : Nat) : String :=
  String.mk (str.toList.take n ++ List.replicate (n - str.length) (Char.ofNat 0))

/-- The call `m_Comm.Reduce(&localSize, &maxSize, 1, MPI_MAX, 0)` on the
process with rank `rank`, given what all ranks send. `helper::Comm` is not
among the sources at hand; `Reduce` is the wrapper of `MPI_Reduce`, the
reduction to the root the call names: on the root the receive buffer gets
the maximum, on any other rank it is not written (`none`). -/
def Comm_Reduce_MAX (sends : List Nat) (root rank : Int) : Option Nat :=
  if rank = root then some (sends.foldl max 0) else none

/-- The send buffer of the reduction in `SyncRequests`: `localSize`. -/
def SscReader.SyncRequests_send (r : SscReader) : Nat :=
  r.m_LocalRequestJsonString.length

/-- `SscReader::SyncRequests` on one process, given the `localSize` of all
the ranks of `m_Comm` (its own among them). Where the reduction does not
write `maxSize`, `resize(maxSize)` reads an uninitialised variable, which is
undefined. -/
def SscReader.SyncRequests (sends : List Nat) (r : SscReader) : ReaderOutcome :=
  match Comm_Reduce_MAX sends 0 r.m_ReaderRank with
  | none => ⟨r, Status.undefined⟩
  | some maxSize =>
    ⟨{ r with m_LocalRequestJsonString := resize r.m_LocalRequestJsonString maxSize },
      Status.ok⟩

/-- Every rank of the reader communicator, in rank order, runs
`SyncRequests`. -/
def SyncRequests_group (group : List SscReader) : List ReaderOutcome :=
  group.map (SscReader.SyncRequests (group.map SscReader.SyncRequests_send))

/-- The local `array` of rank 0 after `m_Comm.GatherArrays(..., 0)`: the
characters the ranks send, rank after rank; `none` when the call of some
rank is undefined. -/
def SyncRequests_array (group : List SscReader) : Option (List Char) :=
  if (SyncRequests_group group).all (fun o => o.status == Status.ok) then
    some ((SyncRequests_group group).flatMap (fun o => o.state.m_LocalRequestJsonString.toList))
  else
    none

/-! ### BeginStep -/

/-- The member functions `BeginStep` calls for the request exchange. -/
inductive Call where
  | SerializeRequests
  | SyncRequests
  deriving DecidableEq, Repr

/-- `SscReader::BeginStep`, given the `localSize` of the other ranks of
`m_Comm`: the reader after the call, how the call ended, and the calls made
for the request exchange. When it returns, it returns `StepStatus::OK`.
`m_CurrentStep` is declared in SscReader.h; its increment is taken on the
integers, which is exact below 2^31 whatever integer type it has. -/
def SscReader.BeginStep (h : Helper) (dump : List (String × Request) → String)
    (peerSizes : List Nat) (r : SscReader) : ReaderOutcome × List Call :=
  if r.m_InitialStep then
    match SscReader.SerializeRequests h dump { r with m_InitialStep := false } with
    | ⟨r1, Status.ok⟩ =>
      (r1.SyncRequests (r1.SyncRequests_send :: peerSizes),
        [Call.SerializeRequests, Call.SyncRequests])
    | stopped => (stopped, [Call.SerializeRequests])
  else
    (⟨{ r with m_CurrentStep := r.m_CurrentStep + 1 }, Status.ok⟩, [])

/-- `BeginStep` called `n` times in a row, for as long as the calls return:
the reader, how the last call made ended, and the calls made for the request
exchange, in order. -/
def SscReader.BeginSteps (h : Helper) (dump : List (String × Request) → String)
    (peerSizes : List Nat) : Nat → SscReader → ReaderOutcome × List Call
  | 0, r => (⟨r, Status.ok⟩, [])
  | n + 1, r =>
    match r.BeginStep h dump peerSizes with
    | (⟨r1, Status.ok⟩, calls) =>
      ((SscReader.BeginSteps h dump peerSizes n r1).1,
        calls ++ (SscReader.BeginSteps h dump peerSizes n r1).2)
    | stopped => stopped

/-- `SscReader::CurrentStep`: `m_CurrentStep` as a `size_t`. -/
def SscReader.CurrentStep (r : SscReader) : Nat :=
  toSizeT r.m_CurrentStep

/-! ### Vocabulary for statements about the metadata -/

/-- A variable entry is an object whose fields all hold strings. -/
def Json.isStringRecord : Json → Bool
  | Json.object fields => fields.all (fun kv => kv.2.get_string.isSome)
  | _ => false

/-- The entry lacks the shape field `S`. -/
def lacksShape (value : Json) : Bool :=
  (value.find "S").isNone

/-- The entry lacks the type field `T`. -/
def lacksType (value : Json) : Bool :=
  (value.find "T").isNone

/-- The shape string of the entry fails the parsing of `StringToDims`. -/
def Helper.badShape (h : Helper) (value : Json) : Bool :=
  match value.find "S" with
  | some (Json.string s) => (h.StringToDims s).isNone
  | _ => false

/-- The type tag of the entry is empty or not one of the supported tags. -/
def Helper.unsupportedEntry (h : Helper) (value : Json) : Bool :=
  match value.find "T" with
  | some (Json.string t) => t.isEmpty || !h.stdTypes.contains t
  | _ => false

/-- The entry lacks the shape field, lacks the type field, or has a shape
string that fails to parse. -/
def Helper.corruptedEntry (h : Helper) (value : Json) : Bool :=
  lacksShape value || lacksType value || h.badShape value

/-- The type tag of an entry: its field `T`. -/
def entryType (value : Json) : String :=
  match value.find "T" with
  | some (Json.string t) => t
  | _ => ""

/-- The extents of an entry: what `StringToDims` makes of its field `S`. -/
def Helper.entryShape (h : Helper) (value : Json) : Dims :=
  match value.find "S" with
  | some (Json.string s) => (h.StringToDims s).getD []
  | _ => []

/-- The request the reader is to hold for a variable entry: type and shape
of the entry, start and count empty. -/
def Helper.entryRequest (h : Helper) (e : String × Json) : String × Request :=
  (e.1, { type := entryType e.2, shape := h.entryShape e.2, start := [], count := [] })

/-- The definition the catalog is to hold for a variable entry. -/
def Helper.entryDefinition (h : Helper) (e : String × Json) : VariableDefinition :=
  { name := e.1, type := entryType e.2, shape := h.entryShape e.2,
    start := List.replicate (h.entryShape e.2).length 0, count := h.entryShape e.2 }

/-! ### Sample data -/

/-- Split a character list at its commas. -/
def splitCommas : List Char → List (List Char)
  | [] => [[]]
  | c :: cs =>
    match splitCommas cs with
    | [] => if c = ',' then [[], []] else [[c]]
    | first :: others => if c = ',' then [] :: first :: others else (c :: first) :: others

/-- The number a non-empty run of decimal digits denotes. -/
def decimal (cs : List Char) : Option Nat :=
  if cs.isEmpty || !cs.all Char.isDigit then none
  else some (cs.foldl (fun acc c => 10 * acc + (c.toNat - 48)) 0)

/-- A stand-in for the helper functions in the examples: comma-separated
decimal extents, and the fourteen type tags of ADIOS2. -/
def Helper.sample : Helper :=
  { StringToDims := fun s => (splitCommas s.toList).mapM decimal,
    stdTypes := ["string", "int8_t", "int16_t", "int32_t", "int64_t", "uint8_t", "uint16_t",
      "uint32_t", "uint64_t", "float", "double", "long double", "float complex",
      "double complex"] }

/-- Two variable entries; the type tag of the second is misspelt. -/
def sampleEntries : List (String × Json) :=
  [("T", Json.object [("S", Json.string "4,4"), ("T", Json.string "float")]),
   ("p", Json.object [("S", Json.string "16"), ("T", Json.string "doubl")])]

/-- Two variable entries without a defect. -/
def validEntries : List (String × Json) :=
  [("T", Json.object [("S", Json.string "4,4"), ("T", Json.string "float")]),
   ("p", Json.object [("S", Json.string "16"), ("T", Json.string "double")])]

/-- A metadata object whose variables are the two entries without a defect. -/
def validMetadata : Json :=
  Json.object [("A", Json.object []), ("V", Json.object validEntries)]

/-- A metadata object with an attribute section and the two entries. -/
def sampleMetadata : Json :=
  Json.object [("A", Json.object []), ("V", Json.object sampleEntries)]

/-- The text of a `Dims` in JSON. -/
def dumpDims (d : Dims) : String :=
  "[" ++ ",".intercalate (d.map toString) ++ "]"

/-- A stand-in for `nlohmann::json::dump` in the examples: the compact text
of the request map, `null` for the empty map; names are not escaped. -/
def sampleDump (requests : List (String × Request)) : String :=
  if requests.isEmpty then "null"
  else
    "\x7b" ++ ",".intercalate (requests.map (fun var =>
      "\x22" ++ var.1 ++ "\x22:\x7b\x22count\x22:" ++ dumpDims var.2.count
        ++ ",\x22shape\x22:" ++ dumpDims var.2.shape
        ++ ",\x22start\x22:" ++ dumpDims var.2.start
        ++ ",\x22type\x22:\x22" ++ var.2.type ++ "\x22\x7d")) ++ "\x7d"

/-- A reader on world rank `worldRank` with rank `readerRank` among the
readers, before anything has been synchronised. -/
def SscReader.fresh (worldRank readerRank : Int) : SscReader :=
  { m_WorldRank := worldRank, m_ReaderRank := readerRank, m_ReaderSize := 1,
    m_ReaderMasterWorldRank := 0, m_WriterMasterWorldRank := 0, m_InitialStep := true,
    m_CurrentStep := 0, m_LocalRequestMap := [], m_LocalRequestJsonString := "", m_IO := [] }

/-- The reader with rank `readerRank` among `readerSize` readers, after the
metadata of the two valid entries has been deserialized. -/
def SscReader.constructed (readerRank readerSize : Int) : SscReader :=
  ({ SscReader.fresh readerRank readerRank with m_ReaderSize := readerSize }.DeserializeMetadata
    Helper.sample validMetadata).state

/-- A reader that has deserialized one variable `p` of 128 doubles and on
which the application has selected `count` elements from `start`. -/
def SscReader.selecting (readerRank readerSize : Int) (start count : Dims) : SscReader :=
  { SscReader.fresh readerRank readerRank with
    m_ReaderSize := readerSize, m_InitialStep := false,
    m_LocalRequestMap := [("p", { type := "double", shape := [128], start := [], count := [] })],
    m_IO := [{ name := "p", type := "double", shape := [128], start := start, count := count }] }

/-- Two reader ranks after `SerializeRequests`: rank 0 selects 100 elements
from 10, rank 1 selects 5 elements from 0, so that the text of rank 0 is the
longer one. -/
def twoReaders : List SscReader :=
  [((SscReader.selecting 0 2 [10] [100]).SerializeRequests Helper.sample sampleDump).state,
   ((SscReader.selecting 1 2 [0] [5]).SerializeRequests Helper.sample sampleDump).state]

end engine
end core

/-! # Theorems -/

namespace transportman

/-! ## The buffer queue -/

theorem successful_cons_some (b : Buffer) (rets : List BufferPtr) :
    successful (some b :: rets) = some b :: successful rets := by
  simp [successful]

theorem successful_cons_none (rets : List BufferPtr) :
    successful (none :: rets) = successful rets := by
  simp [successful]

theorem PopBufferQueue_nil (dm : DataMan) (h : dm.m_BufferQueue = []) :
    dm.PopBufferQueue = (none, dm) := by
  simp [DataMan.PopBufferQueue, h]

theorem PopBufferQueue_cons (dm : DataMan) (v : BufferPtr) (rest : List BufferPtr)
    (h : dm.m_BufferQueue = v :: rest) :
    dm.PopBufferQueue = (v, { dm with m_BufferQueue := rest }) := by
  simp [DataMan.PopBufferQueue, h]

/-- The invariant of a run started on any queue of buffers: what the
successful pops returned, then what is left, is the old queue followed by
the pushed buffers. -/
theorem runQueueOps_invariant (ops : List QueueOp) :
    ∀ dm : DataMan, (∀ v ∈ dm.m_BufferQueue, v ≠ none) → (∀ v ∈ pushed ops, v ≠ none) →
      successful (runQueueOps ops dm).1 ++ (runQueueOps ops dm).2.m_BufferQueue
        = dm.m_BufferQueue ++ pushed ops := by
  induction ops with
  | nil => intro dm _ _; simp [runQueueOps, pushed, successful]
  | cons op ops ih =>
    intro dm hq hp
    cases op with
    | Push v =>
      have hp1 : ∀ w ∈ pushed ops, w ≠ none := fun w hw => hp w (by simp [pushed, hw])
      have hv : v ≠ none := hp v (by simp [pushed])
      have hq1 : ∀ w ∈ (dm.PushBufferQueue v).m_BufferQueue, w ≠ none := by
        intro w hw
        simp only [DataMan.PushBufferQueue, List.mem_append, List.mem_singleton] at hw
        rcases hw with hw | hw
        · exact hq w hw
        · exact hw ▸ hv
      have := ih (dm.PushBufferQueue v) hq1 hp1
      simpa [runQueueOps, pushed, DataMan.PushBufferQueue] using this
    | Pop =>
      have hp1 : ∀ w ∈ pushed ops, w ≠ none := fun w hw => hp w (by simpa [pushed] using hw)
      cases hqueue : dm.m_BufferQueue with
      | nil =>
        have := ih dm hq hp1
        simpa [runQueueOps, pushed, PopBufferQueue_nil dm hqueue, successful_cons_none,
          hqueue] using this
      | cons v rest =>
        have hv : v ≠ none := hq v (by simp [hqueue])
        obtain ⟨b, rfl⟩ := Option.ne_none_iff_exists'.mp hv
        have hq1 : ∀ w ∈ ({ dm with m_BufferQueue := rest } : DataMan).m_BufferQueue,
            w ≠ none := fun w hw => hq w (by simp [hqueue]; exact Or.inr hw)
        have := ih { dm with m_BufferQueue := rest } hq1 hp1
        simp only [runQueueOps, pushed, PopBufferQueue_cons dm _ rest hqueue,
          successful_cons_some, List.cons_append, this]

/-- C1: on an initially empty queue, for every run of PushBufferQueue and
PopBufferQueue calls that pushes buffers, the buffers returned by the
successful pops followed by the buffers left in the queue are the pushed
buffers in push order; the k-th successful pop returns the k-th pushed
buffer, and the final queue size is the number of pushes minus the number of
successful pops. -/
theorem PushPop_fifo (ops : List QueueOp) (dm : DataMan) (hempty : dm.m_BufferQueue = [])
    (hbuffers : ∀ v ∈ pushed ops, v ≠ none) :
    successful (runQueueOps ops dm).1 ++ (runQueueOps ops dm).2.m_BufferQueue = pushed ops
    ∧ (∀ (k : Nat) (v : BufferPtr),
        (successful (runQueueOps ops dm).1)[k]? = some v → (pushed ops)[k]? = some v)
    ∧ (runQueueOps ops dm).2.m_BufferQueue.length
        = (pushed ops).length - (successful (runQueueOps ops dm).1).length := by
  have hinv := runQueueOps_invariant ops dm (by simp [hempty]) hbuffers
  rw [hempty, List.nil_append] at hinv
  refine ⟨hinv, ?_, ?_⟩
  · intro k v hk
    rw [← hinv]
    have hlt : k < (successful (runQueueOps ops dm).1).length := by
      by_contra hge
      rw [List.getElem?_eq_none (Nat.le_of_not_lt hge)] at hk
      exact Option.noConfusion hk
    rw [List.getElem?_append_left hlt]
    exact hk
  · have hlen := congrArg List.length hinv
    rw [List.length_append] at hlen
    omega

/-- A run for C1: two pushes, three pops (the third on the empty queue), a
push of an empty buffer. -/
theorem PushPop_fifo_witness :
    (DataMan.idle false).m_BufferQueue = []
    ∧ (∀ v ∈ pushed sampleRun, v ≠ none)
    ∧ successful (runQueueOps sampleRun (DataMan.idle false)).1
        ++ (runQueueOps sampleRun (DataMan.idle false)).2.m_BufferQueue = pushed sampleRun
    ∧ (∀ (k : Nat) (v : BufferPtr),
        (successful (runQueueOps sampleRun (DataMan.idle false)).1)[k]? = some v →
          (pushed sampleRun)[k]? = some v)
    ∧ (runQueueOps sampleRun (DataMan.idle false)).2.m_BufferQueue.length
        = (pushed sampleRun).length
          - (successful (runQueueOps sampleRun (DataMan.idle false)).1).length :=
  ⟨rfl, by decide, PushPop_fifo sampleRun (DataMan.idle false) rfl (by decide)⟩

/-- C2: PopBufferQueue, and ReadWAN with it, returns nullptr on the empty
queue and leaves it empty; on a queue with head v it returns v and leaves
the rest of the queue, and a head that is a buffer is not the sentinel. -/
theorem PopBufferQueue_contract (dm : DataMan) :
    ({ dm with m_BufferQueue := [] } : DataMan).PopBufferQueue
        = (none, { dm with m_BufferQueue := [] })
    ∧ ({ dm with m_BufferQueue := [] } : DataMan).ReadWAN
        = (none, { dm with m_BufferQueue := [] })
    ∧ (∀ (v : BufferPtr) (rest : List BufferPtr),
        ({ dm with m_BufferQueue := v :: rest } : DataMan).PopBufferQueue
            = (v, { dm with m_BufferQueue := rest })
        ∧ ({ dm with m_BufferQueue := v :: rest } : DataMan).ReadWAN
            = (v, { dm with m_BufferQueue := rest }))
    ∧ (∀ (b : Buffer) (rest : List BufferPtr),
        ({ dm with m_BufferQueue := some b :: rest } : DataMan).PopBufferQueue.1 = some b
        ∧ ({ dm with m_BufferQueue := some b :: rest } : DataMan).PopBufferQueue.1 ≠ none
        ∧ ({ dm with m_BufferQueue := some b :: rest } : DataMan).PopBufferQueue.2.m_BufferQueue
            = rest) := by
  refine ⟨?_, ?_, ?_, ?_⟩
  · simp [DataMan.PopBufferQueue]
  · simp [DataMan.ReadWAN, DataMan.PopBufferQueue]
  · intro v rest
    simp [DataMan.ReadWAN, DataMan.PopBufferQueue]
  · intro b rest
    simp [DataMan.PopBufferQueue]

/-! ## The direct write path -/

/-- C3: the direct-path WriteWAN throws the runtime_error "No valid
transports found" when the transport map is empty and when
m_CurrentTransport is not below the number of opened channels; the manager
(its channels and its buffer queue) is then as it was. -/
theorem WriteWAN_vector_no_transport (dm : DataMan) (buffer : Buffer)
    (h : dm.m_Transports = [] ∨ dm.m_Transports.length ≤ dm.m_CurrentTransport) :
    dm.WriteWAN_vector buffer
      = ⟨dm, Status.raised (Exn.runtime_error
          "ERROR: No valid transports found, from DataMan::WriteWAN()")⟩ := by
  have hge : dm.m_CurrentTransport ≥ dm.m_Transports.length := by
    rcases h with h | h
    · simp [h]
    · exact h
  simp [DataMan.WriteWAN_vector, hge]

/-- An instance of C3: a direct write on a manager without any channel. -/
theorem WriteWAN_vector_no_transport_witness :
    ((DataMan.idle true).m_Transports = []
      ∨ (DataMan.idle true).m_Transports.length ≤ (DataMan.idle true).m_CurrentTransport)
    ∧ (DataMan.idle true).WriteWAN_vector [7, 8]
      = ⟨DataMan.idle true, Status.raised (Exn.runtime_error
          "ERROR: No valid transports found, from DataMan::WriteWAN()")⟩ :=
  ⟨Or.inl rfl, WriteWAN_vector_no_transport (DataMan.idle true) [7, 8] (Or.inl rfl)⟩

/-- C4: with no stream name, OpenWANTransports throws and the manager is as
it was, whatever the mode, the parameters and the profile flag. -/
theorem OpenWANTransports_no_streams (env : Env) (dm : DataMan) (mode : Mode)
    (paramsVector : List Params) (profile : Bool) :
    dm.OpenWANTransports env [] mode paramsVector profile
      = ⟨dm, Status.raised
          (Exn.c_string "No streams to open from DataMan::OpenWANTransports")⟩ := by
  simp [DataMan.OpenWANTransports]

/-! ## Opening the channels -/

theorem emplaceTransport_preserves (dm : DataMan) (key ptr : Nat) :
    (dm.emplaceTransport key ptr).m_DebugMode = dm.m_DebugMode
    ∧ (dm.emplaceTransport key ptr).m_DefaultLibrary = dm.m_DefaultLibrary := by
  unfold DataMan.emplaceTransport
  split <;> exact ⟨rfl, rfl⟩

theorem openZmq_preserves (env : Env) (dm : DataMan) (i : Nat) (name : String) (mode : Mode)
    (ip port transportMode : String) :
    (dm.openZmq env i name mode ip port transportMode).state.m_DebugMode = dm.m_DebugMode
    ∧ (dm.openZmq env i name mode ip port transportMode).state.m_DefaultLibrary
        = dm.m_DefaultLibrary := by
  unfold DataMan.openZmq
  dsimp only
  split
  · exact ⟨rfl, rfl⟩
  · split
    · exact emplaceTransport_preserves _ _ _
    · split <;> exact emplaceTransport_preserves _ _ _

theorem openZmq_failure_state (env : Env) (dm : DataMan) (i : Nat) (name : String) (mode : Mode)
    (ip port transportMode : String)
    (h : (dm.openZmq env i name mode ip port transportMode).status ≠ Status.ok) :
    (dm.openZmq env i name mode ip port transportMode).state = dm := by
  unfold DataMan.openZmq at h ⊢
  dsimp only at h ⊢
  split
  · rfl
  · rename_i hopen
    rw [hopen] at h
    dsimp only at h
    split at h
    · exact absurd rfl h
    · split at h <;> exact absurd rfl h

/-- An iteration of the loop changes neither the debug flag nor the default
library. -/
theorem openChannel_preserves (env : Env) (mode : Mode) (paramsVector : List Params)
    (dm : DataMan) (i : Nat) (name : String) :
    (dm.openChannel env mode paramsVector i name).state.m_DebugMode = dm.m_DebugMode
    ∧ (dm.openChannel env mode paramsVector i name).state.m_DefaultLibrary
        = dm.m_DefaultLibrary := by
  unfold DataMan.openChannel
  split
  · exact ⟨rfl, rfl⟩
  · dsimp only
    split
    · exact ⟨rfl, rfl⟩
    · split
      · exact ⟨rfl, rfl⟩
      · split
        · exact ⟨rfl, rfl⟩
        · split
          · split
            · exact openZmq_preserves _ _ _ _ _ _ _ _
            · exact ⟨rfl, rfl⟩
          · split <;> exact ⟨rfl, rfl⟩

/-- An iteration either leaves the manager alone or is the creation of a
zmq channel. -/
theorem openChannel_cases (env : Env) (mode : Mode) (paramsVector : List Params)
    (dm : DataMan) (i : Nat) (name : String) :
    (dm.openChannel env mode paramsVector i name).state = dm
    ∨ ∃ ip port transportMode, dm.openChannel env mode paramsVector i name
        = dm.openZmq env i name mode ip port transportMode := by
  unfold DataMan.openChannel
  split
  · exact Or.inl rfl
  · dsimp only
    split
    · exact Or.inl rfl
    · split
      · exact Or.inl rfl
      · split
        · exact Or.inl rfl
        · split
          · split
            · exact Or.inr ⟨_, _, _, rfl⟩
            · exact Or.inl rfl
          · split <;> exact Or.inl rfl

/-- An iteration that does not complete leaves the manager as it found it. -/
theorem openChannel_failure_state (env : Env) (mode : Mode) (paramsVector : List Params)
    (dm : DataMan) (i : Nat) (name : String)
    (h : (dm.openChannel env mode paramsVector i name).status ≠ Status.ok) :
    (dm.openChannel env mode paramsVector i name).state = dm := by
  rcases openChannel_cases env mode paramsVector dm i name with hsame | ⟨ip, port, tm, hzmq⟩
  · exact hsame
  · rw [hzmq] at h ⊢
    exact openZmq_failure_state _ _ _ _ _ _ _ _ h

/-- In debug mode an iteration on a library other than zmq does not complete. -/
theorem openChannel_unsupported (env : Env) (mode : Mode) (paramsVector : List Params)
    (dm : DataMan) (i : Nat) (name : String) (params : Params)
    (hparams : paramsVector[i]? = some params)
    (hlibrary : isZmq (GetStringParameter params "Library" dm.m_DefaultLibrary).2 = false)
    (hdebug : dm.m_DebugMode = true) :
    (dm.openChannel env mode paramsVector i name).status ≠ Status.ok := by
  unfold DataMan.openChannel
  rw [hparams]
  dsimp only
  split
  · simp
  · split
    · simp
    · split
      · simp
      · simp [hlibrary, hdebug]

theorem openLoop_nil (env : Env) (mode : Mode) (paramsVector : List Params) (i : Nat)
    (dm : DataMan) :
    DataMan.openLoop env mode paramsVector i [] dm = ⟨dm, Status.ok⟩ := by
  simp [DataMan.openLoop]

theorem openLoop_cons_ok (env : Env) (mode : Mode) (paramsVector : List Params) (i : Nat)
    (name : String) (rest : List String) (dm dm1 : DataMan)
    (h : dm.openChannel env mode paramsVector i name = ⟨dm1, Status.ok⟩) :
    DataMan.openLoop env mode paramsVector i (name :: rest) dm
      = DataMan.openLoop env mode paramsVector (i + 1) rest dm1 := by
  simp [DataMan.openLoop, h]

theorem openLoop_cons_stop (env : Env) (mode : Mode) (paramsVector : List Params) (i : Nat)
    (name : String) (rest : List String) (dm : DataMan)
    (h : (dm.openChannel env mode paramsVector i name).status ≠ Status.ok) :
    DataMan.openLoop env mode paramsVector i (name :: rest) dm
      = dm.openChannel env mode paramsVector i name := by
  rw [DataMan.openLoop]
  split
  · rename_i heq
    rw [heq] at h
    exact absurd rfl h
  · rfl

/-- In debug mode the loop does not complete when one of the channels it
still has to open names a library other than zmq. -/
theorem openLoop_unsupported (env : Env) (mode : Mode) (paramsVector : List Params) :
    ∀ (rest : List String) (i0 : Nat) (dm : DataMan), dm.m_DebugMode = true →
      (∃ j params, j < rest.length ∧ paramsVector[i0 + j]? = some params
        ∧ isZmq (GetStringParameter params "Library" dm.m_DefaultLibrary).2 = false) →
      (DataMan.openLoop env mode paramsVector i0 rest dm).status ≠ Status.ok := by
  intro rest
  induction rest with
  | nil => intro i0 dm _ ⟨j, _, hj, _⟩; simp at hj
  | cons name rest ih =>
    intro i0 dm hdebug ⟨j, params, hj, hparams, hlibrary⟩
    by_cases hstatus : (dm.openChannel env mode paramsVector i0 name).status = Status.ok
    · have hpres := openChannel_preserves env mode paramsVector dm i0 name
      cases hout : dm.openChannel env mode paramsVector i0 name with
      | mk dm1 st =>
        rw [hout] at hstatus hpres
        simp only at hstatus hpres
        subst hstatus
        rw [openLoop_cons_ok env mode paramsVector i0 name rest dm dm1 hout]
        cases j with
        | zero =>
          have := openChannel_unsupported env mode paramsVector dm i0 name params
            (by simpa using hparams) hlibrary hdebug
          rw [hout] at this
          exact absurd rfl this
        | succ j =>
          apply ih (i0 + 1) dm1 (hpres.1.trans hdebug)
          refine ⟨j, params, by simpa using hj, ?_, ?_⟩
          · rw [← hparams]; congr 1; omega
          · rw [hpres.2]; exact hlibrary
    · rw [openLoop_cons_stop env mode paramsVector i0 name rest dm hstatus]
      exact hstatus

/-- C5 fails as stated: without the debug-mode flag a channel that asks for
the library mdtm is skipped and OpenWANTransports returns normally. -/
theorem OpenWANTransports_unsupported_library_silent :
    isZmq (GetStringParameter (sampleParams "mdtm") "Library"
        (DataMan.idle false).m_DefaultLibrary).2 = false
    ∧ (DataMan.idle false).OpenWANTransports Env.sample ["s0"] Mode.Write
        [sampleParams "mdtm"] false = ⟨DataMan.idle false, Status.ok⟩ := by
  decide

/-- When the loop stops at a channel, the manager is as the completed
iterations before that channel left it. -/
theorem openLoop_stop_prefix (env : Env) (mode : Mode) (paramsVector : List Params) :
    ∀ (rest : List String) (i0 : Nat) (dm : DataMan),
      (DataMan.openLoop env mode paramsVector i0 rest dm).status ≠ Status.ok →
      ∃ k name, rest[k]? = some name
        ∧ DataMan.openLoop env mode paramsVector i0 (rest.take k) dm
            = ⟨(DataMan.openLoop env mode paramsVector i0 rest dm).state, Status.ok⟩
        ∧ (DataMan.openLoop env mode paramsVector i0 rest dm).state.openChannel env mode
            paramsVector (i0 + k) name = DataMan.openLoop env mode paramsVector i0 rest dm := by
  intro rest
  induction rest with
  | nil => intro i0 dm h; simp [openLoop_nil] at h
  | cons name rest ih =>
    intro i0 dm h
    by_cases hstatus : (dm.openChannel env mode paramsVector i0 name).status = Status.ok
    · cases hout : dm.openChannel env mode paramsVector i0 name with
      | mk dm1 st =>
        rw [hout] at hstatus
        simp only at hstatus
        subst hstatus
        rw [openLoop_cons_ok env mode paramsVector i0 name rest dm dm1 hout] at h ⊢
        obtain ⟨k, nm, hk, hprefix, hfail⟩ := ih (i0 + 1) dm1 h
        refine ⟨k + 1, nm, by simpa using hk, ?_, ?_⟩
        · rw [List.take_succ_cons, openLoop_cons_ok env mode paramsVector i0 name _ dm dm1 hout]
          exact hprefix
        · have hidx : i0 + (k + 1) = i0 + 1 + k := by omega
          rw [hidx]
          exact hfail
    · rw [openLoop_cons_stop env mode paramsVector i0 name rest dm hstatus]
      have hstate := openChannel_failure_state env mode paramsVector dm i0 name hstatus
      refine ⟨0, name, by simp, ?_, ?_⟩
      · rw [List.take_zero, openLoop_nil, hstate]
      · rw [hstate]; rfl

/-- An iteration on a channel whose port string is empty throws from
`stoi`, before any transport is created. -/
theorem openChannel_empty_port (env : Env) (mode : Mode) (paramsVector : List Params)
    (dm : DataMan) (i : Nat) (name : String) (params : Params)
    (hparams : paramsVector[i]? = some params)
    (hport : (GetStringParameter params "Port" env.default_value).2 = "") :
    dm.openChannel env mode paramsVector i name
      = ⟨dm, Status.raised (Exn.invalid_argument "stoi")⟩ := by
  have hstoi : stoi "" = Except.error (Exn.invalid_argument "stoi") := rfl
  have hempty : ("" : String).isEmpty = true := rfl
  unfold DataMan.openChannel
  rw [hparams]
  simp only [hport, hstoi, hempty, if_true]

theorem WriteWAN_all_queue (buffers : List BufferPtr) :
    ∀ dm : DataMan, dm.WriteWAN_all buffers
      = { dm with m_BufferQueue := dm.m_BufferQueue ++ buffers } := by
  induction buffers with
  | nil => intro dm; simp [DataMan.WriteWAN_all]
  | cons v rest ih =>
    intro dm
    have := ih (dm.WriteWAN_ptr v)
    simp only [DataMan.WriteWAN_all, List.foldl_cons] at this ⊢
    rw [this]
    simp [DataMan.WriteWAN_ptr, DataMan.PushBufferQueue]

theorem WriteThread_idle (fuel : Nat) (dm : DataMan) (transport : Nat)
    (hempty : dm.m_BufferQueue = []) : DataMan.WriteThread fuel dm transport = dm := by
  induction fuel with
  | zero => rfl
  | succ fuel ih =>
    have hbody : dm.WriteThreadBody transport = dm := by
      simp [DataMan.WriteThreadBody, PopBufferQueue_nil dm hempty]
    rw [DataMan.WriteThread]
    split
    · rw [hbody]; exact ih
    · rfl

theorem set_of_getElem? {α : Type} (l : List α) :
    ∀ (i : Nat) (a : α), l[i]? = some a → l.set i a = l := by
  induction l with
  | nil => intro i a h; simp at h
  | cons x xs ih =>
    intro i a h
    cases i with
    | zero => simp at h; simp [h]
    | succ i => simp at h; simp [ih i a h]

theorem writesOf_cons_buffer (b : Buffer) (rest : List BufferPtr) (h : b.length > 0) :
    writesOf (some b :: rest) = (b, b.length) :: writesOf rest := by
  simp [writesOf, h]

theorem writesOf_cons_empty (b : Buffer) (rest : List BufferPtr) (h : ¬ b.length > 0) :
    writesOf (some b :: rest) = writesOf rest := by
  simp [writesOf, h]

theorem writesOf_cons_null (rest : List BufferPtr) :
    writesOf (none :: rest) = writesOf rest := by
  simp [writesOf]

/-- With enough iterations the write task empties the queue and hands the
channel one Write per non-null, non-empty buffer, in queue order. -/
theorem WriteThread_queue (queue : List BufferPtr) :
    ∀ (fuel : Nat) (dm : DataMan) (transport : Nat) (t : Transport),
      dm.m_BufferQueue = queue → queue.length ≤ fuel → dm.m_Writing = true →
      dm.heap[transport]? = some t →
      DataMan.WriteThread fuel dm transport
        = { dm with
            heap := dm.heap.set transport { t with written := t.written ++ writesOf queue },
            m_BufferQueue := [] } := by
  induction queue with
  | nil =>
    intro fuel dm transport t hq _ _ ht
    rw [WriteThread_idle fuel dm transport hq]
    have ht1 : ({ t with written := t.written ++ writesOf [] } : Transport) = t := by
      simp [writesOf]
    rw [ht1, set_of_getElem? dm.heap transport t ht, ← hq]
  | cons v rest ih =>
    intro fuel dm transport t hq hfuel hw ht
    cases fuel with
    | zero => simp at hfuel
    | succ fuel =>
      have hfuel1 : rest.length ≤ fuel := by simpa using hfuel
      rw [DataMan.WriteThread, if_pos hw]
      have hpop := PopBufferQueue_cons dm v rest hq
      cases v with
      | none =>
        have hbody : dm.WriteThreadBody transport = { dm with m_BufferQueue := rest } := by
          simp [DataMan.WriteThreadBody, hpop]
        rw [hbody, ih fuel { dm with m_BufferQueue := rest } transport t rfl hfuel1 hw ht,
          writesOf_cons_null]
      | some b =>
        by_cases hlen : b.length > 0
        · have hbody : dm.WriteThreadBody transport
              = { dm with heap := dm.heap.set transport (t.Write b b.length),
                          m_BufferQueue := rest } := by
            simp [DataMan.WriteThreadBody, hpop, hlen, DataMan.transportWrite, ht]
          have hlt : transport < dm.heap.length := by
            by_contra hge
            rw [List.getElem?_eq_none (Nat.le_of_not_lt hge)] at ht
            exact Option.noConfusion ht
          have hstep := ih fuel
            { dm with heap := dm.heap.set transport (t.Write b b.length),
                      m_BufferQueue := rest }
            transport (t.Write b b.length) rfl hfuel1 hw (List.getElem?_set_self hlt)
          rw [hbody, hstep, writesOf_cons_buffer b rest hlen]
          simp [Transport.Write, List.set_set]
        · have hbody : dm.WriteThreadBody transport = { dm with m_BufferQueue := rest } := by
            simp [DataMan.WriteThreadBody, hpop, hlen]
          rw [hbody, ih fuel { dm with m_BufferQueue := rest } transport t rfl hfuel1 hw ht,
            writesOf_cons_empty b rest hlen]

/-- C8: on a manager whose writing flag is set and whose queue is empty, for
every list of pointers handed to the enqueue-path WriteWAN, the write task of
a channel, iterated at least once per queued pointer, empties the queue and
issues to that channel one Write per non-empty buffer, with the contents and
the size of that buffer, in enqueue order; empty buffers are consumed without
a Write and nothing else of the manager changes. -/
theorem WriteThread_delivers_in_order (dm : DataMan) (transport : Nat) (t : Transport)
    (buffers : List BufferPtr) (fuel : Nat)
    (hwriting : dm.m_Writing = true)
    (hchannel : dm.heap[transport]? = some t)
    (hempty : dm.m_BufferQueue = [])
    (hfuel : buffers.length ≤ fuel) :
    DataMan.WriteThread fuel (dm.WriteWAN_all buffers) transport
      = { dm with
          heap := dm.heap.set transport { t with written := t.written ++ writesOf buffers },
          m_BufferQueue := [] }
    ∧ (DataMan.WriteThread fuel (dm.WriteWAN_all buffers) transport).heap[transport]?
      = some { t with written := t.written ++ writesOf buffers } := by
  have hrun := WriteThread_queue buffers fuel (dm.WriteWAN_all buffers) transport t
    (by rw [WriteWAN_all_queue, hempty]; rfl) hfuel
    (by rw [WriteWAN_all_queue]; exact hwriting)
    (by rw [WriteWAN_all_queue]; exact hchannel)
  have hlt : transport < dm.heap.length := by
    by_contra hge
    rw [List.getElem?_eq_none (Nat.le_of_not_lt hge)] at hchannel
    exact Option.noConfusion hchannel
  have hstate : DataMan.WriteThread fuel (dm.WriteWAN_all buffers) transport
      = { dm with
          heap := dm.heap.set transport { t with written := t.written ++ writesOf buffers },
          m_BufferQueue := [] } := by
    rw [hrun, WriteWAN_all_queue]
  refine ⟨hstate, ?_⟩
  rw [hstate]
  exact List.getElem?_set_self hlt

/-- An instance of C8: one channel opened for write, then three non-empty
buffers and an empty one enqueued. -/
theorem WriteThread_delivers_in_order_witness :
    oneWriteChannel.m_WriteThreads = [0]
    ∧ oneWriteChannel.m_Transports = [(0, 0)]
    ∧ writesOf [some [1], some [], some [2, 3], some [4]] = [([1], 1), ([2, 3], 2), ([4], 1)]
    ∧ (DataMan.WriteThread 4
        (oneWriteChannel.WriteWAN_all [some [1], some [], some [2, 3], some [4]]) 0).heap[0]?
      = some { ip := "127.0.0.1", port := "12306", transportMode := "broadcast",
               debugMode := false, name := "s0", openMode := Mode.Write,
               written := [] ++ writesOf [some [1], some [], some [2, 3], some [4]] } :=
  ⟨by decide, by decide, by decide,
    (WriteThread_delivers_in_order oneWriteChannel 0
      { ip := "127.0.0.1", port := "12306", transportMode := "broadcast", debugMode := false,
        name := "s0", openMode := Mode.Write, written := [] }
      [some [1], some [], some [2, 3], some [4]] 4 (by decide) (by decide) (by decide)
      (by decide)).2⟩

end transportman

namespace core
namespace engine

/-! ## Rank election -/

theorem foldl_max_eq (m : Int) (xs : List Int) :
    ∀ a : Int, (∀ x ∈ xs, x ≤ m) → a ≤ m → (a = m ∨ m ∈ xs) → xs.foldl max a = m := by
  induction xs with
  | nil =>
    intro a _ _ h
    rcases h with h | h
    · simpa using h
    · simp at h
  | cons y ys ih =>
    intro a hle ha h
    have hy : y ≤ m := hle y (by simp)
    rw [List.foldl_cons]
    apply ih (max a y) (fun x hx => hle x (by simp [hx])) (max_le ha hy)
    rcases h with h | h
    · left; rw [h]; exact max_eq_left hy
    · rcases List.mem_cons.mp h with h | h
      · left; rw [← h]; exact max_eq_right ha
      · right; exact h

theorem MPI_Allreduce_MAX_eq (m : Int) (sends : List Int) (hmem : m ∈ sends)
    (hle : ∀ x ∈ sends, x ≤ m) : MPI_Allreduce_MAX sends = m := by
  cases sends with
  | nil => simp at hmem
  | cons x xs =>
    rw [MPI_Allreduce_MAX]
    apply foldl_max_eq m xs x (fun y hy => hle y (by simp [hy])) (hle x (by simp))
    rcases List.mem_cons.mp hmem with h | h
    · left; exact h.symm
    · right; exact h

/-- C9: in a process group in which one reader process has local rank 0 (any
reader with local rank 0 has its world rank), with world ranks that are not
negative and the other participants sending 0 for the reader master, every
process running SyncRank obtains the same pair of master ranks, and
m_ReaderMasterWorldRank is the world rank of the rank-0 reader, also when
that world rank is 0. -/
theorem SyncRank_agreement (w : World) (master : SscReader)
    (hmaster : master ∈ w.readers)
    (hrank0 : master.m_ReaderRank = 0)
    (hunique : ∀ r ∈ w.readers, r.m_ReaderRank = 0 → r.m_WorldRank = master.m_WorldRank)
    (hworld : ∀ r ∈ w.readers, 0 ≤ r.m_WorldRank)
    (hpeers : ∀ p ∈ w.peers, p.1 = 0) :
    w.SyncRank.length = w.readers.length
    ∧ (∀ a ∈ w.SyncRank, a.m_ReaderMasterWorldRank = master.m_WorldRank)
    ∧ (∀ a ∈ w.SyncRank, ∀ b ∈ w.SyncRank,
        (a.m_ReaderMasterWorldRank, a.m_WriterMasterWorldRank)
          = (b.m_ReaderMasterWorldRank, b.m_WriterMasterWorldRank)) := by
  have hmax : MPI_Allreduce_MAX (w.sends.map Prod.fst) = master.m_WorldRank := by
    apply MPI_Allreduce_MAX_eq
    · simp only [World.sends, List.map_append, List.map_map, List.mem_append, List.mem_map]
      left
      exact ⟨master, hmaster, by simp [SscReader.SyncRank_send, hrank0]⟩
    · intro x hx
      simp only [World.sends, List.map_append, List.map_map, List.mem_append, List.mem_map]
        at hx
      rcases hx with ⟨r, hr, rfl⟩ | ⟨p, hp, rfl⟩
      · simp only [Function.comp, SscReader.SyncRank_send]
        split
        · rename_i h0; exact le_of_eq (hunique r hr h0)
        · exact hworld master hmaster
      · rw [hpeers p hp]; exact hworld master hmaster
  refine ⟨by simp [World.SyncRank], ?_, ?_⟩
  · intro a ha
    simp only [World.SyncRank, List.mem_map] at ha
    obtain ⟨r, _, rfl⟩ := ha
    exact hmax
  · intro a ha b hb
    simp only [World.SyncRank, List.mem_map] at ha hb
    obtain ⟨r, _, rfl⟩ := ha
    obtain ⟨q, _, rfl⟩ := hb
    rfl

/-- An instance of C9: two readers and a third participant; the reader with
local rank 0 has world rank 0. -/
theorem SyncRank_agreement_witness :
    (World.SyncRank ⟨[SscReader.fresh 1 1, SscReader.fresh 0 0], [(0, 2)]⟩).length = 2
    ∧ (∀ a ∈ World.SyncRank ⟨[SscReader.fresh 1 1, SscReader.fresh 0 0], [(0, 2)]⟩,
        a.m_ReaderMasterWorldRank = (SscReader.fresh 0 0).m_WorldRank)
    ∧ (∀ a ∈ World.SyncRank ⟨[SscReader.fresh 1 1, SscReader.fresh 0 0], [(0, 2)]⟩,
        ∀ b ∈ World.SyncRank ⟨[SscReader.fresh 1 1, SscReader.fresh 0 0], [(0, 2)]⟩,
        (a.m_ReaderMasterWorldRank, a.m_WriterMasterWorldRank)
          = (b.m_ReaderMasterWorldRank, b.m_WriterMasterWorldRank)) :=
  SyncRank_agreement ⟨[SscReader.fresh 1 1, SscReader.fresh 0 0], [(0, 2)]⟩
    (SscReader.fresh 0 0) (by decide) rfl (by decide) (by decide) (by decide)

/-! ## Validation of the metadata -/

theorem find_isStringRecord (value : Json) (key : String) (v : Json)
    (hwf : value.isStringRecord = true) (hfind : value.find key = some v) :
    ∃ s, v = Json.string s := by
  cases value with
  | object fields =>
    simp only [Json.find, Option.map_eq_some'] at hfind
    obtain ⟨kv, hkv, rfl⟩ := hfind
    simp only [Json.isStringRecord, List.all_eq_true] at hwf
    have hstr := hwf kv (List.mem_of_find?_eq_some hkv)
    cases hv : kv.2 with
    | string s => exact ⟨s, rfl⟩
    | null => rw [hv] at hstr; simp [Json.get_string] at hstr
    | boolean _ => rw [hv] at hstr; simp [Json.get_string] at hstr
    | number _ => rw [hv] at hstr; simp [Json.get_string] at hstr
    | array _ => rw [hv] at hstr; simp [Json.get_string] at hstr
    | object _ => rw [hv] at hstr; simp [Json.get_string] at hstr
  | null => simp [Json.isStringRecord] at hwf
  | boolean _ => simp [Json.isStringRecord] at hwf
  | number _ => simp [Json.isStringRecord] at hwf
  | string _ => simp [Json.isStringRecord] at hwf
  | array _ => simp [Json.isStringRecord] at hwf

/-- What the loop body does on an entry that is an object of strings: it
throws "metadata corrupted" on a corrupted entry, "unknown data type" on an
entry whose only defect is its type tag, and completes otherwise. -/
theorem deserializeVariable_cases (h : Helper) (r : SscReader) (name : String) (value : Json)
    (hwf : value.isStringRecord = true) :
    (h.corruptedEntry value = true →
      r.deserializeVariable h (some name) value = ⟨r, Status.raised metadataCorrupted⟩)
    ∧ (h.corruptedEntry value = false → h.unsupportedEntry value = true →
      r.deserializeVariable h (some name) value = ⟨r, Status.raised unknownDataType⟩)
    ∧ (h.corruptedEntry value = false → h.unsupportedEntry value = false →
      (r.deserializeVariable h (some name) value).status = Status.ok) := by
  cases hS : value.find "S" with
  | none =>
    have hc : h.corruptedEntry value = true := by
      simp [Helper.corruptedEntry, lacksShape, hS]
    refine ⟨fun _ => ?_, fun hn => ?_, fun hn => ?_⟩
    · simp [SscReader.deserializeVariable, hS]
    · rw [hc] at hn; exact Bool.noConfusion hn
    · rw [hc] at hn; exact Bool.noConfusion hn
  | some itS =>
    obtain ⟨s, rfl⟩ := find_isStringRecord value "S" itS hwf hS
    cases hT : value.find "T" with
    | none =>
      have hc : h.corruptedEntry value = true := by
        simp [Helper.corruptedEntry, lacksType, hT]
      refine ⟨fun _ => ?_, fun hn => ?_, fun hn => ?_⟩
      · simp [SscReader.deserializeVariable, hS, hT, Json.get_string]
      · rw [hc] at hn; exact Bool.noConfusion hn
      · rw [hc] at hn; exact Bool.noConfusion hn
    | some itT =>
      obtain ⟨t, rfl⟩ := find_isStringRecord value "T" itT hwf hT
      cases hD : h.StringToDims s with
      | none =>
        have hc : h.corruptedEntry value = true := by
          simp [Helper.corruptedEntry, Helper.badShape, hS, hD]
        refine ⟨fun _ => ?_, fun hn => ?_, fun hn => ?_⟩
        · simp [SscReader.deserializeVariable, hS, hT, hD, Json.get_string]
        · rw [hc] at hn; exact Bool.noConfusion hn
        · rw [hc] at hn; exact Bool.noConfusion hn
      | some shape =>
        have hc : h.corruptedEntry value = false := by
          simp [Helper.corruptedEntry, Helper.badShape, lacksShape, lacksType, hS, hT, hD]
        have hu : h.unsupportedEntry value = (t.isEmpty || !h.stdTypes.contains t) := by
          simp [Helper.unsupportedEntry, hT]
        refine ⟨fun hc1 => ?_, fun _ hun => ?_, fun _ hun => ?_⟩
        · rw [hc] at hc1; exact Bool.noConfusion hc1
        · rw [hu] at hun
          by_cases he : t.isEmpty = true
          · simp [SscReader.deserializeVariable, hS, hT, hD, Json.get_string, he]
          · have hmem : t ∉ h.stdTypes := by simpa [he] using hun
            simp [SscReader.deserializeVariable, hS, hT, hD, Json.get_string, he, hmem]
        · rw [hu] at hun
          have he : ¬ t.isEmpty = true := by
            intro he; simp [he] at hun
          have hmem : t ∈ h.stdTypes := by simpa [he] using hun
          simp [SscReader.deserializeVariable, hS, hT, hD, Json.get_string, he, hmem]

theorem deserializeLoop_cons_ok (h : Helper) (r r1 : SscReader) (key : Option String)
    (value : Json) (rest : List (Option String × Json))
    (hbody : r.deserializeVariable h key value = ⟨r1, Status.ok⟩) :
    SscReader.deserializeLoop h ((key, value) :: rest) r
      = SscReader.deserializeLoop h rest r1 := by
  simp [SscReader.deserializeLoop, hbody]

theorem deserializeLoop_cons_raised (h : Helper) (r r1 : SscReader) (key : Option String)
    (value : Json) (rest : List (Option String × Json)) (x : Exn)
    (hbody : r.deserializeVariable h key value = ⟨r1, Status.raised x⟩) :
    SscReader.deserializeLoop h ((key, value) :: rest) r = ⟨r1, Status.raised x⟩ := by
  simp [SscReader.deserializeLoop, hbody]

/-- The entries of the variables section as the loop visits them. -/
theorem items_object (entries : List (String × Json)) :
    (Json.object entries).items = entries.map (fun kv => (some kv.1, kv.2)) := rfl

/-- The loop completes on entries without a defect. -/
theorem deserializeLoop_ok (h : Helper) (entries : List (String × Json)) :
    ∀ r : SscReader, (∀ e ∈ entries, e.2.isStringRecord = true) →
      (∀ e ∈ entries, h.corruptedEntry e.2 = false ∧ h.unsupportedEntry e.2 = false) →
      (SscReader.deserializeLoop h (entries.map (fun kv => (some kv.1, kv.2))) r).status
        = Status.ok := by
  induction entries with
  | nil => intro r _ _; rfl
  | cons e rest ih =>
    intro r hwf hgood
    have hbody := (deserializeVariable_cases h r e.1 e.2 (hwf e (by simp))).2.2
      (hgood e (by simp)).1 (hgood e (by simp)).2
    cases hout : r.deserializeVariable h (some e.1) e.2 with
    | mk r1 st =>
      rw [hout] at hbody
      simp only at hbody
      subst hbody
      rw [List.map_cons, deserializeLoop_cons_ok h r r1 _ _ _ hout]
      exact ih r1 (fun x hx => hwf x (by simp [hx])) (fun x hx => hgood x (by simp [hx]))

/-- The loop throws at the first entry with a defect, with the error of that
entry. -/
theorem deserializeLoop_first_defect (h : Helper) (pre : List (String × Json))
    (e : String × Json) (post : List (String × Json)) :
    ∀ r : SscReader, (∀ x ∈ pre, x.2.isStringRecord = true) → e.2.isStringRecord = true →
      (∀ x ∈ pre, h.corruptedEntry x.2 = false ∧ h.unsupportedEntry x.2 = false) →
      (h.corruptedEntry e.2 = true →
        (SscReader.deserializeLoop h ((pre ++ e :: post).map (fun kv => (some kv.1, kv.2)))
          r).status = Status.raised metadataCorrupted)
      ∧ (h.corruptedEntry e.2 = false → h.unsupportedEntry e.2 = true →
        (SscReader.deserializeLoop h ((pre ++ e :: post).map (fun kv => (some kv.1, kv.2)))
          r).status = Status.raised unknownDataType) := by
  induction pre with
  | nil =>
    intro r _ hwfe _
    have hcases := deserializeVariable_cases h r e.1 e.2 hwfe
    constructor
    · intro hc
      rw [List.nil_append, List.map_cons,
        deserializeLoop_cons_raised h r r _ _ _ _ (hcases.1 hc)]
    · intro hnc hu
      rw [List.nil_append, List.map_cons,
        deserializeLoop_cons_raised h r r _ _ _ _ (hcases.2.1 hnc hu)]
  | cons p pre ih =>
    intro r hwf hwfe hgood
    have hbody := (deserializeVariable_cases h r p.1 p.2 (hwf p (by simp))).2.2
      (hgood p (by simp)).1 (hgood p (by simp)).2
    cases hout : r.deserializeVariable h (some p.1) p.2 with
    | mk r1 st =>
      rw [hout] at hbody
      simp only at hbody
      subst hbody
      rw [List.cons_append, List.map_cons, deserializeLoop_cons_ok h r r1 _ _ _ hout]
      exact ih r1 (fun x hx => hwf x (by simp [hx])) hwfe (fun x hx => hgood x (by simp [hx]))

/-- A list with an element on which a test succeeds splits at the first such
element. -/
theorem first_split {α : Type} (P : α → Bool) (l : List α) :
    (∃ e ∈ l, P e = true) →
      ∃ pre e post, l = pre ++ e :: post ∧ (∀ x ∈ pre, P x = false) ∧ P e = true := by
  induction l with
  | nil => rintro ⟨e, he, _⟩; simp at he
  | cons a rest ih =>
    rintro ⟨e, he, hP⟩
    cases ha : P a with
    | true => exact ⟨[], a, rest, rfl, by simp, ha⟩
    | false =>
      have hrest : ∃ e ∈ rest, P e = true := by
        rcases List.mem_cons.mp he with rfl | he
        · rw [ha] at hP; exact Bool.noConfusion hP
        · exact ⟨e, he, hP⟩
      obtain ⟨pre, x, post, hl, hpre, hx⟩ := ih hrest
      refine ⟨a :: pre, x, post, by rw [hl]; rfl, ?_, hx⟩
      intro y hy
      rcases List.mem_cons.mp hy with rfl | hy
      · exact ha
      · exact hpre y hy

/-- C10: on a metadata object whose section V maps names to objects of
strings, DeserializeMetadata throws exactly when some variable entry lacks
the field S, lacks the field T, has a shape string that fails to parse, or
has a type tag that is empty or not supported. The loop stops at the first
entry with a defect: lacking S or T or a bad shape gives "metadata
corrupted", and an entry whose defect is its type tag gives "unknown data
type". -/
theorem DeserializeMetadata_raises_iff (h : Helper) (r : SscReader) (j : Json)
    (entries : List (String × Json))
    (hV : j.find "V" = some (Json.object entries))
    (hwf : ∀ e ∈ entries, e.2.isStringRecord = true) :
    ((∃ x, (r.DeserializeMetadata h j).status = Status.raised x)
      ↔ ∃ e ∈ entries, lacksShape e.2 = true ∨ lacksType e.2 = true ∨ h.badShape e.2 = true
          ∨ h.unsupportedEntry e.2 = true)
    ∧ (∀ pre e post, entries = pre ++ e :: post →
        (∀ x ∈ pre, h.corruptedEntry x.2 = false ∧ h.unsupportedEntry x.2 = false) →
        (h.corruptedEntry e.2 = true →
          (r.DeserializeMetadata h j).status = Status.raised metadataCorrupted)
        ∧ (h.corruptedEntry e.2 = false → h.unsupportedEntry e.2 = true →
          (r.DeserializeMetadata h j).status = Status.raised unknownDataType))
    ∧ ((∃ e ∈ entries, h.corruptedEntry e.2 = true) →
        (∀ e ∈ entries, h.unsupportedEntry e.2 = false) →
        (r.DeserializeMetadata h j).status = Status.raised metadataCorrupted)
    ∧ ((∃ e ∈ entries, h.unsupportedEntry e.2 = true) →
        (∀ e ∈ entries, h.corruptedEntry e.2 = false) →
        (r.DeserializeMetadata h j).status = Status.raised unknownDataType) := by
  have hcall : r.DeserializeMetadata h j
      = SscReader.deserializeLoop h (entries.map (fun kv => (some kv.1, kv.2))) r := by
    simp [SscReader.DeserializeMetadata, hV, items_object]
  rw [hcall]
  have hfirst : ∀ pre e post, entries = pre ++ e :: post →
      (∀ x ∈ pre, h.corruptedEntry x.2 = false ∧ h.unsupportedEntry x.2 = false) →
      (h.corruptedEntry e.2 = true →
        (SscReader.deserializeLoop h (entries.map (fun kv => (some kv.1, kv.2))) r).status
          = Status.raised metadataCorrupted)
      ∧ (h.corruptedEntry e.2 = false → h.unsupportedEntry e.2 = true →
        (SscReader.deserializeLoop h (entries.map (fun kv => (some kv.1, kv.2))) r).status
          = Status.raised unknownDataType) := by
    intro pre e post hsplit hpre
    subst hsplit
    exact deserializeLoop_first_defect h pre e post r
      (fun x hx => hwf x (by simp [hx])) (hwf e (by simp)) hpre
  have hdefect : (∃ e ∈ entries, (h.corruptedEntry e.2 || h.unsupportedEntry e.2) = true) →
      ∃ pre e post, entries = pre ++ e :: post
        ∧ (∀ x ∈ pre, h.corruptedEntry x.2 = false ∧ h.unsupportedEntry x.2 = false)
        ∧ (h.corruptedEntry e.2 || h.unsupportedEntry e.2) = true := by
    intro hex
    obtain ⟨pre, e, post, hsplit, hpre, he⟩ :=
      first_split (fun e : String × Json => h.corruptedEntry e.2 || h.unsupportedEntry e.2)
        entries hex
    exact ⟨pre, e, post, hsplit, fun x hx => by simpa using hpre x hx, he⟩
  have hraise : ∀ pre e post, entries = pre ++ e :: post →
      (∀ x ∈ pre, h.corruptedEntry x.2 = false ∧ h.unsupportedEntry x.2 = false) →
      (h.corruptedEntry e.2 || h.unsupportedEntry e.2) = true →
      ∃ x, (SscReader.deserializeLoop h (entries.map (fun kv => (some kv.1, kv.2))) r).status
        = Status.raised x := by
    intro pre e post hsplit hpre he
    cases hc : h.corruptedEntry e.2 with
    | true => exact ⟨_, (hfirst pre e post hsplit hpre).1 hc⟩
    | false =>
      rw [hc, Bool.false_or] at he
      exact ⟨_, (hfirst pre e post hsplit hpre).2 hc he⟩
  refine ⟨⟨?_, ?_⟩, hfirst, ?_, ?_⟩
  · rintro ⟨x, hx⟩
    by_contra hnone
    have hgood : ∀ e ∈ entries, h.corruptedEntry e.2 = false ∧ h.unsupportedEntry e.2 = false := by
      intro e he
      constructor
      · by_contra hc
        apply hnone
        have hc1 : h.corruptedEntry e.2 = true := by simpa using hc
        simp only [Helper.corruptedEntry, Bool.or_eq_true] at hc1
        rcases hc1 with (h1 | h1) | h1
        · exact ⟨e, he, Or.inl h1⟩
        · exact ⟨e, he, Or.inr (Or.inl h1)⟩
        · exact ⟨e, he, Or.inr (Or.inr (Or.inl h1))⟩
      · by_contra hu
        exact hnone ⟨e, he, Or.inr (Or.inr (Or.inr (by simpa using hu)))⟩
    rw [deserializeLoop_ok h entries r hwf hgood] at hx
    exact Status.noConfusion hx
  · rintro ⟨e0, he0, hd0⟩
    have hex : ∃ e ∈ entries, (h.corruptedEntry e.2 || h.unsupportedEntry e.2) = true := by
      refine ⟨e0, he0, ?_⟩
      simp only [Helper.corruptedEntry, Bool.or_eq_true]
      rcases hd0 with h1 | h1 | h1 | h1
      · exact Or.inl (Or.inl (Or.inl h1))
      · exact Or.inl (Or.inl (Or.inr h1))
      · exact Or.inl (Or.inr h1)
      · exact Or.inr h1
    obtain ⟨pre, e, post, hsplit, hpre, he⟩ := hdefect hex
    exact hraise pre e post hsplit hpre he
  · rintro ⟨e0, he0, hc0⟩ hnu
    obtain ⟨pre, e, post, hsplit, hpre, he⟩ := hdefect ⟨e0, he0, by simp [hc0]⟩
    have hmem : e ∈ entries := by rw [hsplit]; simp
    rw [hnu e hmem, Bool.or_false] at he
    exact (hfirst pre e post hsplit hpre).1 he
  · rintro ⟨e0, he0, hu0⟩ hnc
    obtain ⟨pre, e, post, hsplit, hpre, he⟩ := hdefect ⟨e0, he0, by simp [hu0]⟩
    have hmem : e ∈ entries := by rw [hsplit]; simp
    rw [hnc e hmem, Bool.false_or] at he
    exact (hfirst pre e post hsplit hpre).2 (hnc e hmem) he

/-- An instance of C10: the second of two variable entries has the type tag
"doubl", which is not supported. -/
theorem DeserializeMetadata_raises_iff_witness :
    sampleMetadata.find "V" = some (Json.object sampleEntries)
    ∧ (∀ e ∈ sampleEntries, e.2.isStringRecord = true)
    ∧ (∀ e ∈ sampleEntries, Helper.sample.corruptedEntry e.2 = false)
    ∧ (∃ e ∈ sampleEntries, Helper.sample.unsupportedEntry e.2 = true)
    ∧ ((SscReader.fresh 0 0).DeserializeMetadata Helper.sample sampleMetadata).status
        = Status.raised unknownDataType :=
  ⟨rfl, by decide, by decide, by decide,
    (DeserializeMetadata_raises_iff Helper.sample (SscReader.fresh 0 0) sampleMetadata
      sampleEntries rfl (by decide)).2.2.2 (by decide) (by decide)⟩

/-! ## The requests and definitions made from the metadata -/

/-- On an entry without a defect the loop body defines the variable and
sets shape and type of its request. -/
theorem deserializeVariable_ok_state (h : Helper) (r : SscReader) (name : String)
    (value : Json) (hwf : value.isStringRecord = true)
    (hc : h.corruptedEntry value = false) (hu : h.unsupportedEntry value = false) :
    r.deserializeVariable h (some name) value
      = ⟨{ r with
            m_IO := r.m_IO ++ [h.entryDefinition (name, value)],
            m_LocalRequestMap :=
              requestMapUpdate (fun q => { q with type := entryType value }) name
                (requestMapUpdate (fun q => { q with shape := h.entryShape value }) name
                  r.m_LocalRequestMap) },
          Status.ok⟩ := by
  cases hS : value.find "S" with
  | none => simp [Helper.corruptedEntry, lacksShape, hS] at hc
  | some itS =>
    obtain ⟨s, rfl⟩ := find_isStringRecord value "S" itS hwf hS
    cases hT : value.find "T" with
    | none => simp [Helper.corruptedEntry, lacksType, hT] at hc
    | some itT =>
      obtain ⟨t, rfl⟩ := find_isStringRecord value "T" itT hwf hT
      cases hD : h.StringToDims s with
      | none => simp [Helper.corruptedEntry, Helper.badShape, hS, hD] at hc
      | some shape =>
        have hu1 : (t.isEmpty || !h.stdTypes.contains t) = false := by
          simpa [Helper.unsupportedEntry, hT] using hu
        have he : ¬ t.isEmpty = true := by
          intro he; simp [he] at hu1
        have hmem : t ∈ h.stdTypes := by simpa [he] using hu1
        simp [SscReader.deserializeVariable, hS, hT, hD, Json.get_string, he, hmem,
          Helper.entryDefinition, entryType, Helper.entryShape, Catalog.DefineVariable]

/-- Setting two members of the request of a new key makes one new element. -/
theorem requestMapUpdate_new (f g : Request → Request) (key : String) :
    ∀ m : List (String × Request), key ∉ m.map Prod.fst →
      (requestMapUpdate g key (requestMapUpdate f key m)).Perm
        ((key, g (f ⟨"", [], [], []⟩)) :: m) := by
  intro m
  induction m with
  | nil => intro _; simp [requestMapUpdate]
  | cons kr rest ih =>
    intro hnew
    obtain ⟨k, q⟩ := kr
    have hk : ¬ k = key := by
      intro hk; apply hnew; simp [hk]
    have hrest : key ∉ rest.map Prod.fst := by
      intro hin; apply hnew; simp only [List.map_cons, List.mem_cons]; exact Or.inr hin
    by_cases hlt : key.toList < k.toList
    · rw [requestMapUpdate, if_neg hk, if_pos hlt, requestMapUpdate, if_pos rfl]
    · rw [requestMapUpdate, if_neg hk, if_neg hlt, requestMapUpdate, if_neg hk, if_neg hlt]
      exact ((ih hrest).cons (k, q)).trans (List.Perm.swap _ _ _)

/-- The loop over entries without a defect, with names that are new to the
request map, completes; it adds one request per entry to the map and one
definition per entry to the catalog. -/
theorem deserializeLoop_requests (h : Helper) (entries : List (String × Json)) :
    ∀ r : SscReader, (∀ e ∈ entries, e.2.isStringRecord = true) →
      (∀ e ∈ entries, h.corruptedEntry e.2 = false ∧ h.unsupportedEntry e.2 = false) →
      (entries.map Prod.fst).Nodup →
      (∀ e ∈ entries, e.1 ∉ r.m_LocalRequestMap.map Prod.fst) →
      ∃ r1, SscReader.deserializeLoop h (entries.map (fun kv => (some kv.1, kv.2))) r
          = ⟨r1, Status.ok⟩
        ∧ r1.m_LocalRequestMap.Perm (entries.map h.entryRequest ++ r.m_LocalRequestMap)
        ∧ r1.m_IO = r.m_IO ++ entries.map h.entryDefinition := by
  induction entries with
  | nil =>
    intro r _ _ _ _
    exact ⟨r, rfl, by simp, by simp⟩
  | cons e rest ih =>
    intro r hwf hvalid hnodup hnew
    have hbody := deserializeVariable_ok_state h r e.1 e.2 (hwf e (by simp))
      (hvalid e (by simp)).1 (hvalid e (by simp)).2
    have hperm := requestMapUpdate_new (fun q => { q with shape := h.entryShape e.2 })
      (fun q => { q with type := entryType e.2 }) e.1 r.m_LocalRequestMap (hnew e (by simp))
    rw [List.map_cons, List.nodup_cons] at hnodup
    rw [List.map_cons, deserializeLoop_cons_ok h r _ _ _ _ hbody]
    have hnew1 : ∀ x ∈ rest, x.1 ∉ (requestMapUpdate (fun q => { q with type := entryType e.2 })
        e.1 (requestMapUpdate (fun q => { q with shape := h.entryShape e.2 }) e.1
          r.m_LocalRequestMap)).map Prod.fst := by
      intro x hx hin
      rw [(hperm.map Prod.fst).mem_iff] at hin
      rcases List.mem_cons.mp hin with heq | hin
      · exact hnodup.1 (by rw [← heq]; exact List.mem_map_of_mem Prod.fst hx)
      · exact hnew x (by simp [hx]) hin
    obtain ⟨r1, hloop, hmap, hio⟩ := ih
      { r with
        m_IO := r.m_IO ++ [h.entryDefinition (e.1, e.2)],
        m_LocalRequestMap :=
          requestMapUpdate (fun q => { q with type := entryType e.2 }) e.1
            (requestMapUpdate (fun q => { q with shape := h.entryShape e.2 }) e.1
              r.m_LocalRequestMap) }
      (fun x hx => hwf x (by simp [hx]))
      (fun x hx => hvalid x (by simp [hx])) hnodup.2 hnew1
    refine ⟨r1, hloop, ?_, ?_⟩
    · refine hmap.trans ?_
      refine ((List.Perm.append_left (rest.map h.entryRequest) hperm).trans ?_)
      rw [List.map_cons, List.cons_append]
      exact List.perm_middle
    · rw [hio]
      simp

/-- C11: on a reader whose request map is still empty, for a metadata object
whose section V (absent, empty or with any number of entries under distinct
names) holds only entries without a defect, DeserializeMetadata completes;
m_LocalRequestMap then holds one request per variable name of V and no other,
with the type tag T and the parsed extents of S of that entry and with start
and count empty, and every such name has been defined in the catalog with
that type and shape, in the order of V. -/
theorem DeserializeMetadata_requests (h : Helper) (r : SscReader) (j : Json)
    (entries : List (String × Json))
    (hV : j.find "V" = some (Json.object entries) ∨ (j.find "V" = none ∧ entries = []))
    (hwf : ∀ e ∈ entries, e.2.isStringRecord = true)
    (hvalid : ∀ e ∈ entries, h.corruptedEntry e.2 = false ∧ h.unsupportedEntry e.2 = false)
    (hnames : (entries.map Prod.fst).Nodup)
    (hfresh : r.m_LocalRequestMap = []) :
    (r.DeserializeMetadata h j).status = Status.ok
    ∧ (r.DeserializeMetadata h j).state.m_LocalRequestMap.Perm (entries.map h.entryRequest)
    ∧ ((r.DeserializeMetadata h j).state.m_LocalRequestMap.map Prod.fst).Nodup
    ∧ SscReader.m_IO (r.DeserializeMetadata h j).state
        = r.m_IO ++ entries.map h.entryDefinition := by
  rcases hV with hV | ⟨hV, rfl⟩
  · have hcall : r.DeserializeMetadata h j
        = SscReader.deserializeLoop h (entries.map (fun kv => (some kv.1, kv.2))) r := by
      simp [SscReader.DeserializeMetadata, hV, items_object]
    obtain ⟨r1, hloop, hmap, hio⟩ := deserializeLoop_requests h entries r hwf hvalid hnames
      (by intro e _; rw [hfresh]; simp)
    rw [hcall, hloop]
    rw [hfresh, List.append_nil] at hmap
    refine ⟨rfl, hmap, ?_, hio⟩
    rw [(hmap.map Prod.fst).nodup_iff]
    simpa [Helper.entryRequest, Function.comp] using hnames
  · simp [SscReader.DeserializeMetadata, hV, hfresh]

/-- An instance of C11: the variables T of shape 4,4 and p of shape 16. -/
theorem DeserializeMetadata_requests_witness :
    (∀ e ∈ validEntries, e.2.isStringRecord = true)
    ∧ (∀ e ∈ validEntries,
        Helper.sample.corruptedEntry e.2 = false ∧ Helper.sample.unsupportedEntry e.2 = false)
    ∧ ((SscReader.fresh 0 0).DeserializeMetadata Helper.sample validMetadata).state.m_LocalRequestMap
        = [("T", { type := "float", shape := [4, 4], start := [], count := [] }),
           ("p", { type := "double", shape := [16], start := [], count := [] })]
    ∧ validEntries.map Helper.sample.entryRequest
        = [("T", { type := "float", shape := [4, 4], start := [], count := [] }),
           ("p", { type := "double", shape := [16], start := [], count := [] })]
    ∧ (((SscReader.fresh 0 0).DeserializeMetadata Helper.sample validMetadata).status = Status.ok
      ∧ ((SscReader.fresh 0 0).DeserializeMetadata Helper.sample
            validMetadata).state.m_LocalRequestMap.Perm
          (validEntries.map Helper.sample.entryRequest)
      ∧ (((SscReader.fresh 0 0).DeserializeMetadata Helper.sample
            validMetadata).state.m_LocalRequestMap.map Prod.fst).Nodup
      ∧ SscReader.m_IO
          ((SscReader.fresh 0 0).DeserializeMetadata Helper.sample validMetadata).state
          = SscReader.m_IO (SscReader.fresh 0 0)
            ++ validEntries.map Helper.sample.entryDefinition) :=
  ⟨by decide, by decide, by decide, by decide,
    DeserializeMetadata_requests Helper.sample (SscReader.fresh 0 0) validMetadata validEntries
      (Or.inl rfl) (by decide) (by decide) (by decide) rfl⟩

/-! ## The step of the inline reader -/

/-- A value of a signed type of at most 64 bits survives the conversion to
`size_t` and back. -/
theorem toSigned_toSizeT (bits : Nat) (s : Int) (hbits1 : 1 ≤ bits) (hbits64 : bits ≤ 64)
    (hlow : -(2 ^ (bits - 1)) ≤ s) (hhigh : s < 2 ^ (bits - 1)) :
    toSigned bits (toSizeT s) = s := by
  have hu : ((toSizeT s : Nat) : Int) = s % 2 ^ 64 :=
    Int.toNat_of_nonneg (Int.emod_nonneg _ (by positivity))
  have hdvd : (2 : Int) ^ bits ∣ 2 ^ 64 := pow_dvd_pow 2 hbits64
  have hmod : (s % 2 ^ 64) % 2 ^ bits = s % 2 ^ bits := Int.emod_emod_of_dvd s hdvd
  have hB : (2 : Int) ^ bits = 2 * 2 ^ (bits - 1) := by
    rw [← pow_succ']
    congr 1
    omega
  have hH : (0 : Int) < 2 ^ (bits - 1) := by positivity
  unfold toSigned
  rw [hu, hmod]
  by_cases hs : 0 ≤ s
  · have hval : s % 2 ^ bits = s := Int.emod_eq_of_lt hs (by omega)
    rw [hval, if_pos hhigh]
  · have hval : s % 2 ^ bits = s + 2 ^ bits := by
      rw [← Int.add_emod_self]
      exact Int.emod_eq_of_lt (by omega) (by omega)
    rw [hval, if_neg (by omega)]
    omega

/-- C13: for every step value s of the writer that the reader's counter can
hold, InlineReader::BeginStep returns EndOfStream exactly when s is -1 and OK
otherwise; in both cases the reader's counter is s afterwards, and
CurrentStep returns what the writer reports. -/
theorem InlineReader_BeginStep_mirrors (bits : Nat) (r : InlineReader) (writer : InlineWriter)
    (hbits1 : 1 ≤ bits) (hbits64 : bits ≤ 64)
    (hlow : -(2 ^ (bits - 1)) ≤ writer.m_CurrentStep)
    (hhigh : writer.m_CurrentStep < 2 ^ (bits - 1)) :
    ((r.BeginStep bits writer).2 = StepStatus.EndOfStream ↔ writer.m_CurrentStep = -1)
    ∧ (writer.m_CurrentStep ≠ -1 → (r.BeginStep bits writer).2 = StepStatus.OK)
    ∧ (r.BeginStep bits writer).1.m_CurrentStep = writer.m_CurrentStep
    ∧ (r.BeginStep bits writer).1.CurrentStep writer = writer.CurrentStep := by
  have hconv := toSigned_toSizeT bits writer.m_CurrentStep hbits1 hbits64 hlow hhigh
  unfold InlineReader.BeginStep InlineWriter.CurrentStep
  simp only [hconv]
  by_cases hs : writer.m_CurrentStep = -1
  · simp [hs, InlineReader.CurrentStep, InlineWriter.CurrentStep]
  · simp [hs, InlineReader.CurrentStep, InlineWriter.CurrentStep]

/-- Instances of C13: a writer at the sentinel and a writer at step 7, on a
reader whose counter is an `int`. -/
theorem InlineReader_BeginStep_mirrors_witness :
    (InlineReader.BeginStep 32 ⟨0, 0, 0⟩ ⟨-1⟩).2 = StepStatus.EndOfStream
    ∧ (InlineReader.BeginStep 32 ⟨0, 0, 0⟩ ⟨7⟩).2 = StepStatus.OK
    ∧ ((InlineReader.BeginStep 32 ⟨0, 0, 0⟩ ⟨-1⟩).2 = StepStatus.EndOfStream
        ↔ (InlineWriter.mk (-1)).m_CurrentStep = -1)
    ∧ ((InlineWriter.mk (-1)).m_CurrentStep ≠ -1 →
        (InlineReader.BeginStep 32 ⟨0, 0, 0⟩ ⟨-1⟩).2 = StepStatus.OK)
    ∧ (InlineReader.BeginStep 32 ⟨0, 0, 0⟩ ⟨-1⟩).1.m_CurrentStep
        = (InlineWriter.mk (-1)).m_CurrentStep
    ∧ (InlineReader.BeginStep 32 ⟨0, 0, 0⟩ ⟨-1⟩).1.CurrentStep ⟨-1⟩
        = (InlineWriter.mk (-1)).CurrentStep :=
  ⟨by decide, by decide,
    InlineReader_BeginStep_mirrors 32 ⟨0, 0, 0⟩ ⟨-1⟩ (by decide) (by decide) (by decide)
      (by decide)⟩

end engine
end core

namespace transportman

/-! ## The read task -/

theorem afterIRead_length (buffer received : Buffer) (h : received.length ≤ buffer.length) :
    (afterIRead buffer received).length = buffer.length := by
  simp only [afterIRead, List.length_append, List.length_drop]
  omega

theorem afterIRead_take (buffer received : Buffer) :
    (afterIRead buffer received).take received.length = received := by
  simp [afterIRead]

/-- An iteration whose read fits the buffer pushes the bytes received when
there are any, and nothing otherwise. -/
theorem ReadThreadBody_fits (dm : DataMan) (buffer received : Buffer)
    (h : received.length ≤ buffer.length) :
    dm.ReadThreadBody buffer received
      = (⟨{ dm with m_BufferQueue := dm.m_BufferQueue ++ pushesOf [received] }, Status.ok⟩,
          afterIRead buffer received) := by
  unfold DataMan.ReadThreadBody
  rw [if_neg (by omega)]
  by_cases hpos : received.length > 0
  · simp [hpos, afterIRead_take, DataMan.PushBufferQueue, pushesOf]
  · simp [hpos, pushesOf]

theorem pushesOf_cons (received : Buffer) (later : List Buffer) :
    pushesOf (received :: later) = pushesOf [received] ++ pushesOf later := by
  by_cases hpos : received.length > 0 <;> simp [pushesOf, hpos]

/-- The loop over reads that fit the buffer appends to the queue the reads
with more than zero bytes, in order. -/
theorem ReadThreadLoop_queue (reads : List Buffer) :
    ∀ (dm : DataMan) (buffer : Buffer), dm.m_Reading = true →
      (∀ received ∈ reads, received.length ≤ buffer.length) →
      DataMan.ReadThreadLoop reads dm buffer
        = ⟨{ dm with m_BufferQueue := dm.m_BufferQueue ++ pushesOf reads }, Status.ok⟩ := by
  induction reads with
  | nil => intro dm buffer _ _; simp [DataMan.ReadThreadLoop, pushesOf]
  | cons received later ih =>
    intro dm buffer hreading hfit
    have hfit0 : received.length ≤ buffer.length := hfit received (by simp)
    rw [DataMan.ReadThreadLoop, if_pos hreading, ReadThreadBody_fits dm buffer received hfit0]
    simp only []
    have hstep := ih { dm with m_BufferQueue := dm.m_BufferQueue ++ pushesOf [received] }
      (afterIRead buffer received) hreading
      (fun x hx => by rw [afterIRead_length buffer received hfit0]; exact hfit x (by simp [hx]))
    rw [hstep, pushesOf_cons received later]
    simp

/-- C14: with the reading flag set, on a channel whose successive IRead
calls each receive at most m_MaxReceiveBuffer bytes, the read task pushes to
the buffer queue one buffer per read of more than zero bytes, in the order
received, each holding exactly the bytes received; a read of zero bytes
pushes nothing, and the task goes on without an error. -/
theorem ReadThread_pushes_in_order (dm : DataMan) (reads : List Buffer)
    (hreading : dm.m_Reading = true)
    (hmax : ∀ received ∈ reads, received.length ≤ dm.m_MaxReceiveBuffer) :
    dm.ReadThread reads
      = ⟨{ dm with m_BufferQueue := dm.m_BufferQueue ++ pushesOf reads }, Status.ok⟩
    ∧ (∀ v ∈ pushesOf reads, ∃ received ∈ reads, v = some received ∧ received.length > 0)
    ∧ (pushesOf reads).length = (reads.filter (fun received => received.length > 0)).length := by
  refine ⟨?_, ?_, by simp [pushesOf]⟩
  · unfold DataMan.ReadThread
    exact ReadThreadLoop_queue reads dm _ hreading (by simpa using hmax)
  · intro v hv
    simp only [pushesOf, List.mem_map, List.mem_filter, decide_eq_true_eq] at hv
    obtain ⟨received, ⟨hmem, hpos⟩, rfl⟩ := hv
    exact ⟨received, hmem, rfl, hpos⟩

/-- An instance of C14: a channel opened for read delivers three bytes,
nothing, and two bytes. -/
theorem ReadThread_pushes_in_order_witness :
    oneReadChannel.m_Reading = true
    ∧ (∀ received ∈ ([[1, 2, 3], [], [4, 5]] : List Buffer),
        received.length ≤ oneReadChannel.m_MaxReceiveBuffer)
    ∧ pushesOf [[1, 2, 3], [], [4, 5]] = [some [1, 2, 3], some [4, 5]]
    ∧ oneReadChannel.ReadThread [[1, 2, 3], [], [4, 5]]
        = ⟨{ oneReadChannel with
              m_BufferQueue := oneReadChannel.m_BufferQueue
                ++ pushesOf [[1, 2, 3], [], [4, 5]] },
            Status.ok⟩ :=
  ⟨by decide, by decide, by decide,
    (ReadThread_pushes_in_order oneReadChannel [[1, 2, 3], [], [4, 5]] (by decide)
      (by decide)).1⟩

/-! ## The direct write path after skipped channels -/

/-- C16 fails on the code: after OpenWANTransports, without the debug flag,
on two channels of which the first asks for an unsupported library, the only
transport is registered under key 1; with m_CurrentTransport 0 the range
check of the direct-path WriteWAN passes (0 < 1), no transport is registered
under key 0, and the call through the null pointer that
m_Transports[0] yields is undefined. -/
theorem WriteWAN_vector_unregistered_key :
    skippedFirst.m_Transports = [(1, 0)]
    ∧ skippedFirst.m_CurrentTransport = 0
    ∧ ¬ (skippedFirst.m_CurrentTransport ≥ skippedFirst.m_Transports.length)
    ∧ skippedFirst.findTransport skippedFirst.m_CurrentTransport = none
    ∧ skippedFirst.WriteWAN_vector [7, 8] = ⟨skippedFirst, Status.undefined⟩ := by
  decide

end transportman

namespace core
namespace engine

/-! ## The request exchange -/

/-- C15 fails on the code: of two reader ranks, rank 0 receives the maximum
of the two sizes and pads its text to it, but on rank 1 the reduction to
root 0 leaves maxSize unwritten, so that the resize of its (shorter) text and
the size of its array are undefined; its text is not padded to the group
maximum and there is no defined gather. -/
theorem SyncRequests_nonroot_undefined :
    twoReaders.map SscReader.SyncRequests_send = [64, 61]
    ∧ (SyncRequests_group twoReaders).map (fun o => o.status)
        = [Status.ok, Status.undefined]
    ∧ (SyncRequests_group twoReaders).map (fun o => o.state.m_LocalRequestJsonString.length)
        = [64, 61]
    ∧ SyncRequests_array twoReaders = none := by
  decide

/-- On every rank other than 0 the call of SyncRequests is undefined. -/
theorem SyncRequests_nonroot (sends : List Nat) (r : SscReader) (hrank : r.m_ReaderRank ≠ 0) :
    r.SyncRequests sends = ⟨r, Status.undefined⟩ := by
  simp [SscReader.SyncRequests, Comm_Reduce_MAX, hrank]

theorem le_foldl_max (sends : List Nat) :
    ∀ (a x : Nat), (x = a ∨ x ∈ sends) → x ≤ sends.foldl max a := by
  induction sends with
  | nil =>
    intro a x hx
    rcases hx with rfl | hx
    · exact Nat.le_refl _
    · simp at hx
  | cons y ys ih =>
    intro a x hx
    rw [List.foldl_cons]
    rcases hx with rfl | hx
    · exact Nat.le_trans (Nat.le_max_left _ _) (ih (max x y) (max x y) (Or.inl rfl))
    · rcases List.mem_cons.mp hx with rfl | hx
      · exact Nat.le_trans (Nat.le_max_right _ _) (ih (max a x) (max a x) (Or.inl rfl))
      · exact ih (max a y) x (Or.inr hx)

theorem resize_length (str : String) (n : Nat) : (resize str n).length = n := by
  have hlen : (resize str n).length
      = (str.toList.take n ++ List.replicate (n - str.length) (Char.ofNat 0)).length := rfl
  have hstr : str.length = str.toList.length := rfl
  rw [hlen, List.length_append, List.length_take, List.length_replicate, hstr]
  omega

theorem resize_prefix (str : String) (n : Nat) (h : str.length ≤ n) :
    str.toList <+: (resize str n).toList := by
  have hlist : (resize str n).toList
      = str.toList.take n ++ List.replicate (n - str.length) (Char.ofNat 0) := rfl
  have hstr : str.toList.length ≤ n := h
  rw [hlist, List.take_of_length_le hstr]
  exact List.prefix_append _ _

/-- On rank 0 the text is padded to the maximum of the sizes sent, and the
text it had is a prefix of the padded one. -/
theorem SyncRequests_root (sends : List Nat) (r : SscReader) (hrank : r.m_ReaderRank = 0)
    (hown : r.SyncRequests_send ∈ sends) :
    (r.SyncRequests sends).status = Status.ok
    ∧ (r.SyncRequests sends).state.m_LocalRequestJsonString.length = sends.foldl max 0
    ∧ r.m_LocalRequestJsonString.toList
        <+: (r.SyncRequests sends).state.m_LocalRequestJsonString.toList := by
  have hle : r.m_LocalRequestJsonString.length ≤ sends.foldl max 0 :=
    le_foldl_max sends 0 _ (Or.inr hown)
  have hcall : r.SyncRequests sends
      = ⟨{ r with m_LocalRequestJsonString :=
            resize r.m_LocalRequestJsonString (sends.foldl max 0) }, Status.ok⟩ := by
    simp [SscReader.SyncRequests, Comm_Reduce_MAX, hrank]
  rw [hcall]
  exact ⟨rfl, resize_length _ _, resize_prefix _ _ hle⟩

/-! ## The step counter of the SSC reader -/

theorem serializeRequests_flags (h : Helper) (dump : List (String × Request) → String)
    (r : SscReader) :
    (r.SerializeRequests h dump).state.m_InitialStep = r.m_InitialStep
    ∧ (r.SerializeRequests h dump).state.m_CurrentStep = r.m_CurrentStep := by
  unfold SscReader.SerializeRequests
  split <;> exact ⟨rfl, rfl⟩

theorem syncRequests_flags (sends : List Nat) (r : SscReader) :
    (r.SyncRequests sends).state.m_InitialStep = r.m_InitialStep
    ∧ (r.SyncRequests sends).state.m_CurrentStep = r.m_CurrentStep := by
  unfold SscReader.SyncRequests
  split <;> exact ⟨rfl, rfl⟩

/-- A first call that returns has made the request exchange, has cleared the
flag and has left the counter alone. -/
theorem BeginStep_first (h : Helper) (dump : List (String × Request) → String)
    (peerSizes : List Nat) (r : SscReader) (hfresh : r.m_InitialStep = true)
    (hexchange : (r.BeginStep h dump peerSizes).1.status = Status.ok) :
    (r.BeginStep h dump peerSizes).2 = [Call.SerializeRequests, Call.SyncRequests]
    ∧ (r.BeginStep h dump peerSizes).1.state.m_InitialStep = false
    ∧ (r.BeginStep h dump peerSizes).1.state.m_CurrentStep = r.m_CurrentStep := by
  have hflags := serializeRequests_flags h dump { r with m_InitialStep := false }
  unfold SscReader.BeginStep at hexchange ⊢
  rw [if_pos hfresh] at hexchange ⊢
  cases hser : SscReader.SerializeRequests h dump { r with m_InitialStep := false } with
  | mk r1 st =>
    rw [hser] at hexchange hflags
    cases st with
    | ok =>
      have hsync := syncRequests_flags (r1.SyncRequests_send :: peerSizes) r1
      simp only at hflags
      exact ⟨rfl, hsync.1.trans hflags.1, hsync.2.trans hflags.2⟩
    | raised e => simp at hexchange
    | undefined => simp at hexchange

theorem BeginStep_later (h : Helper) (dump : List (String × Request) → String)
    (peerSizes : List Nat) (r : SscReader) (hlater : r.m_InitialStep = false) :
    r.BeginStep h dump peerSizes
      = (⟨{ r with m_CurrentStep := r.m_CurrentStep + 1 }, Status.ok⟩, []) := by
  simp [SscReader.BeginStep, hlater]

/-- After the first call every call returns, makes no exchange and adds one
to the counter. -/
theorem BeginSteps_later (h : Helper) (dump : List (String × Request) → String)
    (peerSizes : List Nat) (n : Nat) :
    ∀ r : SscReader, r.m_InitialStep = false →
      SscReader.BeginSteps h dump peerSizes n r
        = (⟨{ r with m_CurrentStep := r.m_CurrentStep + (n : Int) }, Status.ok⟩, []) := by
  induction n with
  | zero => intro r _; simp [SscReader.BeginSteps]
  | succ n ih =>
    intro r hlater
    rw [SscReader.BeginSteps, BeginStep_later h dump peerSizes r hlater]
    simp only []
    rw [ih { r with m_CurrentStep := r.m_CurrentStep + 1 } hlater]
    simp only [List.append_nil]
    congr 3
    push_cast
    ring

/-- What `k + 1` calls on a fresh reader amount to, when the first returns. -/
theorem BeginSteps_fresh (h : Helper) (dump : List (String × Request) → String)
    (peerSizes : List Nat) (r : SscReader) (k : Nat) (hfresh : r.m_InitialStep = true)
    (hexchange : (r.BeginStep h dump peerSizes).1.status = Status.ok) :
    (SscReader.BeginSteps h dump peerSizes (k + 1) r).1.status = Status.ok
    ∧ (SscReader.BeginSteps h dump peerSizes (k + 1) r).2
        = [Call.SerializeRequests, Call.SyncRequests]
    ∧ (SscReader.BeginSteps h dump peerSizes (k + 1) r).1.state.m_CurrentStep
        = r.m_CurrentStep + (k : Int) := by
  obtain ⟨hcalls, hflag, hcount⟩ := BeginStep_first h dump peerSizes r hfresh hexchange
  rw [SscReader.BeginSteps]
  cases hstep : r.BeginStep h dump peerSizes with
  | mk out calls =>
    cases out with
    | mk r1 st =>
      rw [hstep] at hexchange hcalls hflag hcount
      simp only at hexchange hcalls hflag hcount
      subst hexchange
      subst hcalls
      simp only []
      rw [BeginSteps_later h dump peerSizes k r1 hflag]
      simp [hcount]

/-- The first loop of SerializeRequests completes on requests whose type
tags are supported. -/
theorem serializeLoop_supported (h : Helper) (io : Catalog) :
    ∀ requests : List (String × Request),
      (∀ var ∈ requests, var.2.type.isEmpty = false ∧ h.stdTypes.contains var.2.type = true) →
      (serializeLoop h io requests).2 = Status.ok := by
  intro requests
  induction requests with
  | nil => intro _; rfl
  | cons var rest ih =>
    intro hall
    have hvar := hall var (by simp)
    have hsome : ∃ var1, serializeVariable h io var = some var1 := by
      unfold serializeVariable
      rw [if_neg (by simp [hvar.1]), if_pos hvar.2]
      split <;> exact ⟨_, rfl⟩
    obtain ⟨var1, hvar1⟩ := hsome
    rw [serializeLoop, hvar1]
    exact ih (fun x hx => hall x (by simp [hx]))

/-- On rank 0, with requests whose type tags are supported (as
DeserializeMetadata leaves them), the first BeginStep returns. -/
theorem BeginStep_first_returns (h : Helper) (dump : List (String × Request) → String)
    (peerSizes : List Nat) (r : SscReader) (hfresh : r.m_InitialStep = true)
    (hroot : r.m_ReaderRank = 0)
    (htypes : ∀ var ∈ r.m_LocalRequestMap,
      var.2.type.isEmpty = false ∧ h.stdTypes.contains var.2.type = true) :
    (r.BeginStep h dump peerSizes).1.status = Status.ok := by
  have hloop := serializeLoop_supported h r.m_IO r.m_LocalRequestMap htypes
  unfold SscReader.BeginStep
  rw [if_pos hfresh]
  unfold SscReader.SerializeRequests
  cases hrun : serializeLoop h r.m_IO r.m_LocalRequestMap with
  | mk requests st =>
    rw [hrun] at hloop
    simp only at hloop
    subst hloop
    simp [SscReader.SyncRequests, Comm_Reduce_MAX, hroot]

theorem toSizeT_add (c : Int) (j : Nat) (hlow : 0 ≤ c) (hhigh : c + j < 2 ^ 64) :
    toSizeT (c + j) = toSizeT c + j := by
  unfold toSizeT
  rw [Int.emod_eq_of_lt (by omega) hhigh, Int.emod_eq_of_lt hlow (by omega)]
  omega

/-- Where the first BeginStep of a reader in its initial state returns (on
rank 0 it does, by BeginStep_first_returns; on the other ranks it does not,
by SyncRequests_nonroot), for every n of at least 1 (with a counter that
stays below 2^31), n calls of BeginStep all return and have made the request
exchange (SerializeRequests, then SyncRequests) once, on the first call; the
first call leaves the step counter as it was and every later call adds one to
it, so that CurrentStep() is the initial value plus n - 1, and the counter
never decreases. -/
theorem BeginStep_counter (h : Helper) (dump : List (String × Request) → String)
    (peerSizes : List Nat) (r : SscReader) (n : Nat)
    (hfresh : r.m_InitialStep = true)
    (hexchange : (r.BeginStep h dump peerSizes).1.status = Status.ok)
    (hn : 1 ≤ n) (hlow : 0 ≤ r.m_CurrentStep) (hhigh : r.m_CurrentStep + n ≤ 2 ^ 31) :
    (SscReader.BeginSteps h dump peerSizes n r).1.status = Status.ok
    ∧ (SscReader.BeginSteps h dump peerSizes n r).2
        = [Call.SerializeRequests, Call.SyncRequests]
    ∧ (r.BeginStep h dump peerSizes).2 = [Call.SerializeRequests, Call.SyncRequests]
    ∧ (r.BeginStep h dump peerSizes).1.state.m_CurrentStep = r.m_CurrentStep
    ∧ (SscReader.BeginSteps h dump peerSizes n r).1.state.CurrentStep
        = r.CurrentStep + (n - 1)
    ∧ (∀ m, 1 ≤ m → m < n →
        (SscReader.BeginSteps h dump peerSizes (m + 1) r).1.state.CurrentStep
          = (SscReader.BeginSteps h dump peerSizes m r).1.state.CurrentStep + 1
        ∧ (SscReader.BeginSteps h dump peerSizes (m + 1) r).2
          = (SscReader.BeginSteps h dump peerSizes m r).2)
    ∧ (∀ m, m ≤ n →
        (SscReader.BeginSteps h dump peerSizes m r).1.state.CurrentStep
          ≤ (SscReader.BeginSteps h dump peerSizes n r).1.state.CurrentStep) := by
  have hfirst := BeginStep_first h dump peerSizes r hfresh hexchange
  have hcur : ∀ k : Nat, k < n →
      (SscReader.BeginSteps h dump peerSizes (k + 1) r).1.state.CurrentStep
        = r.CurrentStep + k := by
    intro k hk
    have hk1 := (BeginSteps_fresh h dump peerSizes r k hfresh hexchange).2.2
    unfold SscReader.CurrentStep
    rw [hk1]
    exact toSizeT_add r.m_CurrentStep k hlow (by omega)
  obtain ⟨k, rfl⟩ : ∃ k, n = k + 1 := ⟨n - 1, by omega⟩
  have hrun := BeginSteps_fresh h dump peerSizes r k hfresh hexchange
  refine ⟨hrun.1, hrun.2.1, hfirst.1, hfirst.2.2, ?_, ?_, ?_⟩
  · rw [hcur k (by omega)]
    rfl
  · intro m hm1 hmn
    obtain ⟨j, rfl⟩ : ∃ j, m = j + 1 := ⟨m - 1, by omega⟩
    constructor
    · rw [hcur (j + 1) (by omega), hcur j (by omega)]
      rfl
    · rw [(BeginSteps_fresh h dump peerSizes r (j + 1) hfresh hexchange).2.1,
        (BeginSteps_fresh h dump peerSizes r j hfresh hexchange).2.1]
  · intro m hmn
    rw [hcur k (by omega)]
    cases m with
    | zero =>
      simp only [SscReader.BeginSteps]
      omega
    | succ j =>
      rw [hcur j (by omega)]
      omega

/-- Four calls on rank 0 of a single reader, constructed on the metadata of
the two valid entries. -/
theorem BeginStep_counter_witness :
    (SscReader.constructed 0 1).m_InitialStep = true
    ∧ ((SscReader.constructed 0 1).BeginStep Helper.sample sampleDump []).1.status = Status.ok
    ∧ (SscReader.BeginSteps Helper.sample sampleDump [] 4
        (SscReader.constructed 0 1)).1.state.m_CurrentStep = 3
    ∧ ((SscReader.BeginSteps Helper.sample sampleDump [] 4
          (SscReader.constructed 0 1)).1.status = Status.ok
      ∧ (SscReader.BeginSteps Helper.sample sampleDump [] 4 (SscReader.constructed 0 1)).2
          = [Call.SerializeRequests, Call.SyncRequests]
      ∧ ((SscReader.constructed 0 1).BeginStep Helper.sample sampleDump []).2
          = [Call.SerializeRequests, Call.SyncRequests]
      ∧ ((SscReader.constructed 0 1).BeginStep Helper.sample sampleDump []).1.state.m_CurrentStep
          = (SscReader.constructed 0 1).m_CurrentStep
      ∧ (SscReader.BeginSteps Helper.sample sampleDump [] 4
          (SscReader.constructed 0 1)).1.state.CurrentStep
          = (SscReader.constructed 0 1).CurrentStep + (4 - 1)
      ∧ (∀ m, 1 ≤ m → m < 4 →
          (SscReader.BeginSteps Helper.sample sampleDump [] (m + 1)
              (SscReader.constructed 0 1)).1.state.CurrentStep
            = (SscReader.BeginSteps Helper.sample sampleDump [] m
              (SscReader.constructed 0 1)).1.state.CurrentStep + 1
          ∧ (SscReader.BeginSteps Helper.sample sampleDump [] (m + 1)
              (SscReader.constructed 0 1)).2
            = (SscReader.BeginSteps Helper.sample sampleDump [] m
              (SscReader.constructed 0 1)).2)
      ∧ (∀ m, m ≤ 4 →
          (SscReader.BeginSteps Helper.sample sampleDump [] m
              (SscReader.constructed 0 1)).1.state.CurrentStep
            ≤ (SscReader.BeginSteps Helper.sample sampleDump [] 4
              (SscReader.constructed 0 1)).1.state.CurrentStep)) :=
  ⟨by decide, by decide, by decide,
    BeginStep_counter Helper.sample sampleDump [] (SscReader.constructed 0 1) 4 (by decide)
      (by decide) (by decide) (by decide) (by decide)⟩

end engine
end core

namespace transportman

/-! ## One iteration of the loop, by the port and the library -/

/-- An iteration with parameters at hand, told by what the port comes to,
by the library and by the debug flag. -/
theorem openChannel_eq (env : Env) (mode : Mode) (paramsVector : List Params)
    (dm : DataMan) (i : Nat) (name : String) (params : Params)
    (hparams : paramsVector[i]? = some params) :
    dm.openChannel env mode paramsVector i name
      = match calculatePort env i (GetStringParameter params "Port" env.default_value).2 with
        | PortResult.raised e => ⟨dm, Status.raised e⟩
        | PortResult.overflow => ⟨dm, Status.undefined⟩
        | PortResult.number port =>
          if isZmq (GetStringParameter params "Library" dm.m_DefaultLibrary).2 then
            if env.haveZeroMQ then
              dm.openZmq env i name mode
                (GetStringParameter params "IPAddress" env.default_value).2 port
                (GetStringParameter params "TransportMode" dm.m_DefaultTransportMode).2
            else
              ⟨dm, Status.raised (Exn.invalid_argument
                ("ERROR: this version of ADIOS2 didn\x27t compile with " ++
                  "ZMQ library, in call to Open\n"))⟩
          else if dm.m_DebugMode then
            ⟨dm, Status.raised (unsupportedLibrary
              (GetStringParameter params "Library" dm.m_DefaultLibrary).2)⟩
          else
            ⟨dm, Status.ok⟩ := by
  unfold DataMan.openChannel calculatePort unsupportedLibrary
  rw [hparams]
  dsimp only
  split
  · rfl
  · split
    · rfl
    · split
      · rfl
      · rfl

/-- The loop over a list in two parts: when the first part completes, the
loop goes on with the second part from the manager it left. -/
theorem openLoop_append (env : Env) (mode : Mode) (paramsVector : List Params) :
    ∀ (first second : List String) (i0 : Nat) (dm dm1 : DataMan),
      DataMan.openLoop env mode paramsVector i0 first dm = ⟨dm1, Status.ok⟩ →
      DataMan.openLoop env mode paramsVector i0 (first ++ second) dm
        = DataMan.openLoop env mode paramsVector (i0 + first.length) second dm1 := by
  intro first
  induction first with
  | nil =>
    intro second i0 dm dm1 h
    rw [openLoop_nil] at h
    have hdm : dm = dm1 := congrArg Outcome.state h
    subst hdm
    simp
  | cons name rest ih =>
    intro second i0 dm dm1 h
    by_cases hstatus : (dm.openChannel env mode paramsVector i0 name).status = Status.ok
    · cases hout : dm.openChannel env mode paramsVector i0 name with
      | mk dm0 st =>
        rw [hout] at hstatus
        simp only at hstatus
        subst hstatus
        rw [openLoop_cons_ok env mode paramsVector i0 name rest dm dm0 hout] at h
        rw [List.cons_append, openLoop_cons_ok env mode paramsVector i0 name _ dm dm0 hout,
          ih second (i0 + 1) dm0 dm1 h]
        congr 1
        simp only [List.length_cons]
        omega
    · rw [openLoop_cons_stop env mode paramsVector i0 name rest dm hstatus] at h
      rw [h] at hstatus
      exact absurd rfl hstatus

/-- When the loop stops in the first part of a list, the second part is not
looked at. -/
theorem openLoop_append_stop (env : Env) (mode : Mode) (paramsVector : List Params) :
    ∀ (first second : List String) (i0 : Nat) (dm : DataMan),
      (DataMan.openLoop env mode paramsVector i0 first dm).status ≠ Status.ok →
      DataMan.openLoop env mode paramsVector i0 (first ++ second) dm
        = DataMan.openLoop env mode paramsVector i0 first dm := by
  intro first
  induction first with
  | nil => intro second i0 dm h; rw [openLoop_nil] at h; exact absurd rfl h
  | cons name rest ih =>
    intro second i0 dm h
    by_cases hstatus : (dm.openChannel env mode paramsVector i0 name).status = Status.ok
    · cases hout : dm.openChannel env mode paramsVector i0 name with
      | mk dm0 st =>
        rw [hout] at hstatus
        simp only at hstatus
        subst hstatus
        rw [openLoop_cons_ok env mode paramsVector i0 name rest dm dm0 hout] at h ⊢
        rw [List.cons_append, openLoop_cons_ok env mode paramsVector i0 name _ dm dm0 hout]
        exact ih second (i0 + 1) dm0 h
    · rw [List.cons_append, openLoop_cons_stop env mode paramsVector i0 name rest dm hstatus,
        openLoop_cons_stop env mode paramsVector i0 name _ dm hstatus]

theorem openLoop_preserves (env : Env) (mode : Mode) (paramsVector : List Params) :
    ∀ (rest : List String) (i0 : Nat) (dm : DataMan),
      (DataMan.openLoop env mode paramsVector i0 rest dm).state.m_DebugMode = dm.m_DebugMode
      ∧ (DataMan.openLoop env mode paramsVector i0 rest dm).state.m_DefaultLibrary
          = dm.m_DefaultLibrary := by
  intro rest
  induction rest with
  | nil => intro i0 dm; rw [openLoop_nil]; exact ⟨rfl, rfl⟩
  | cons name rest ih =>
    intro i0 dm
    have hpres := openChannel_preserves env mode paramsVector dm i0 name
    by_cases hstatus : (dm.openChannel env mode paramsVector i0 name).status = Status.ok
    · cases hout : dm.openChannel env mode paramsVector i0 name with
      | mk dm1 st =>
        rw [hout] at hstatus hpres
        simp only at hstatus hpres
        subst hstatus
        rw [openLoop_cons_ok env mode paramsVector i0 name rest dm dm1 hout]
        exact ⟨(ih (i0 + 1) dm1).1.trans hpres.1, (ih (i0 + 1) dm1).2.trans hpres.2⟩
    · rw [openLoop_cons_stop env mode paramsVector i0 name rest dm hstatus]
      exact hpres

theorem eq_take_cons_drop {α : Type} (l : List α) (i : Nat) (a : α) (h : l[i]? = some a) :
    l = l.take i ++ a :: l.drop (i + 1) ∧ (l.take i).length = i := by
  have hlt : i < l.length := by
    by_contra hge
    rw [List.getElem?_eq_none (Nat.le_of_not_lt hge)] at h
    exact Option.noConfusion h
  have hget : l[i] = a := by
    rw [List.getElem?_eq_getElem hlt] at h
    exact Option.some.inj h
  constructor
  · rw [← hget, ← List.drop_eq_getElem_cons hlt, List.take_append_drop]
  · rw [List.length_take]
    omega

/-! ## Failure of the setup -/

/-- C5, as amended: for a channel i of the list that names a library (after
defaulting) other than zmq or ZMQ. With the debug-mode flag set
OpenWANTransports does not return normally: whenever its behaviour is defined
it throws, the manager is left as the first k iterations left it for some
k ≤ i, and when the loop reaches channel i with a port that parses it throws
the invalid_argument naming the library, the manager being as the i earlier
iterations left it. With the flag not set, when the loop reaches channel i
with a port that parses, the iteration raises nothing and changes nothing,
and the loop goes on with channel i + 1. With or without the flag, a port on
which stoi throws makes the iteration of channel i throw that exception. -/
theorem OpenWANTransports_unsupported_library (env : Env) (dm : DataMan)
    (streamNames : List String) (mode : Mode) (paramsVector : List Params) (profile : Bool)
    (i : Nat) (name : String) (params : Params)
    (hname : streamNames[i]? = some name)
    (hparams : paramsVector[i]? = some params)
    (hlibrary : isZmq (GetStringParameter params "Library" dm.m_DefaultLibrary).2 = false) :
    (({ dm with m_DebugMode := true } : DataMan).OpenWANTransports env streamNames mode
        paramsVector profile).status ≠ Status.ok
    ∧ ((({ dm with m_DebugMode := true } : DataMan).OpenWANTransports env streamNames mode
          paramsVector profile).status ≠ Status.undefined →
        ∃ e, (({ dm with m_DebugMode := true } : DataMan).OpenWANTransports env streamNames mode
          paramsVector profile).status = Status.raised e)
    ∧ (∃ k, k ≤ i
        ∧ DataMan.openLoop env mode paramsVector 0 (streamNames.take k)
            { dm with m_DebugMode := true }
          = ⟨(({ dm with m_DebugMode := true } : DataMan).OpenWANTransports env streamNames
              mode paramsVector profile).state, Status.ok⟩)
    ∧ (∀ (dm1 : DataMan) (port : String),
        calculatePort env i (GetStringParameter params "Port" env.default_value).2
          = PortResult.number port →
        DataMan.openLoop env mode paramsVector 0 (streamNames.take i)
            { dm with m_DebugMode := true } = ⟨dm1, Status.ok⟩ →
        ({ dm with m_DebugMode := true } : DataMan).OpenWANTransports env streamNames mode
            paramsVector profile
          = ⟨dm1, Status.raised (unsupportedLibrary
              (GetStringParameter params "Library" dm.m_DefaultLibrary).2)⟩)
    ∧ (∀ (dm1 : DataMan) (port : String),
        calculatePort env i (GetStringParameter params "Port" env.default_value).2
          = PortResult.number port →
        DataMan.openLoop env mode paramsVector 0 (streamNames.take i)
            { dm with m_DebugMode := false } = ⟨dm1, Status.ok⟩ →
        dm1.openChannel env mode paramsVector i name = ⟨dm1, Status.ok⟩
        ∧ ({ dm with m_DebugMode := false } : DataMan).OpenWANTransports env streamNames mode
            paramsVector profile
          = DataMan.openLoop env mode paramsVector (i + 1) (streamNames.drop (i + 1)) dm1)
    ∧ (∀ (dm1 : DataMan) (e : Exn),
        calculatePort env i (GetStringParameter params "Port" env.default_value).2
          = PortResult.raised e →
        dm1.openChannel env mode paramsVector i name = ⟨dm1, Status.raised e⟩) := by
  have hlt : i < streamNames.length := by
    by_contra hge
    rw [List.getElem?_eq_none (Nat.le_of_not_lt hge)] at hname
    exact Option.noConfusion hname
  have hne : streamNames.length ≠ 0 := by omega
  have hcall : ∀ d : DataMan, d.OpenWANTransports env streamNames mode paramsVector profile
      = DataMan.openLoop env mode paramsVector 0 streamNames d := by
    intro d
    simp [DataMan.OpenWANTransports, hne]
  obtain ⟨hsplit, htake⟩ := eq_take_cons_drop streamNames i name hname
  -- the iteration of channel i from a manager the loop has reached
  have hbody : ∀ (d dm1 : DataMan) (port : String),
      d.m_DefaultLibrary = dm.m_DefaultLibrary →
      calculatePort env i (GetStringParameter params "Port" env.default_value).2
        = PortResult.number port →
      DataMan.openLoop env mode paramsVector 0 (streamNames.take i) d = ⟨dm1, Status.ok⟩ →
      dm1.openChannel env mode paramsVector i name
        = (if dm1.m_DebugMode then
            ⟨dm1, Status.raised (unsupportedLibrary
              (GetStringParameter params "Library" dm.m_DefaultLibrary).2)⟩
          else ⟨dm1, Status.ok⟩)
      ∧ dm1.m_DebugMode = d.m_DebugMode
      ∧ DataMan.openLoop env mode paramsVector 0 streamNames d
        = DataMan.openLoop env mode paramsVector i (name :: streamNames.drop (i + 1)) dm1 := by
    intro d dm1 port hd hport hreach
    have hpres := openLoop_preserves env mode paramsVector (streamNames.take i) 0 d
    rw [hreach] at hpres
    simp only at hpres
    have hlib : isZmq (GetStringParameter params "Library" dm1.m_DefaultLibrary).2 = false := by
      rw [hpres.2, hd]; exact hlibrary
    refine ⟨?_, hpres.1, ?_⟩
    · rw [openChannel_eq env mode paramsVector dm1 i name params hparams, hport]
      dsimp only
      rw [hpres.2, hd, hlibrary]
      simp
    · have happ := openLoop_append env mode paramsVector (streamNames.take i)
        (name :: streamNames.drop (i + 1)) 0 d dm1 hreach
      rw [← hsplit, htake, Nat.zero_add] at happ
      exact happ
  have hloop := openLoop_unsupported env mode paramsVector streamNames 0
    { dm with m_DebugMode := true } rfl ⟨i, params, hlt, by simpa using hparams, hlibrary⟩
  refine ⟨?_, ?_, ?_, ?_, ?_, ?_⟩
  · rw [hcall]; exact hloop
  · rw [hcall]
    intro hdef
    cases hst : (DataMan.openLoop env mode paramsVector 0 streamNames
        { dm with m_DebugMode := true }).status with
    | ok => exact absurd hst hloop
    | raised e => exact ⟨e, rfl⟩
    | undefined => exact absurd hst hdef
  · rw [hcall]
    -- the loop cannot get past channel i
    by_cases hreach : ∃ dm1, DataMan.openLoop env mode paramsVector 0 (streamNames.take i)
        { dm with m_DebugMode := true } = ⟨dm1, Status.ok⟩
    · obtain ⟨dm1, hreach⟩ := hreach
      have hpres := openLoop_preserves env mode paramsVector (streamNames.take i) 0
        { dm with m_DebugMode := true }
      rw [hreach] at hpres
      simp only at hpres
      have hfail : (dm1.openChannel env mode paramsVector i name).status ≠ Status.ok :=
        openChannel_unsupported env mode paramsVector dm1 i name params hparams
          (by rw [hpres.2]; exact hlibrary) hpres.1
      have happ := openLoop_append env mode paramsVector (streamNames.take i)
        (name :: streamNames.drop (i + 1)) 0 { dm with m_DebugMode := true } dm1 hreach
      rw [← hsplit, htake, Nat.zero_add,
        openLoop_cons_stop env mode paramsVector i name _ dm1 hfail] at happ
      refine ⟨i, Nat.le_refl _, ?_⟩
      rw [happ, openChannel_failure_state env mode paramsVector dm1 i name hfail]
      exact hreach
    · have hnot : (DataMan.openLoop env mode paramsVector 0 (streamNames.take i)
          { dm with m_DebugMode := true }).status ≠ Status.ok := by
        intro hok
        apply hreach
        cases hout : DataMan.openLoop env mode paramsVector 0 (streamNames.take i)
            { dm with m_DebugMode := true } with
        | mk st status =>
          rw [hout] at hok
          simp only at hok
          subst hok
          exact ⟨st, rfl⟩
      obtain ⟨k, nm, hk, hprefix, hfail⟩ := openLoop_stop_prefix env mode paramsVector
        (streamNames.take i) 0 { dm with m_DebugMode := true } hnot
      have hki : k < i := by
        by_contra hge
        rw [List.getElem?_eq_none (by rw [htake]; omega)] at hk
        exact Option.noConfusion hk
      have happ := openLoop_append_stop env mode paramsVector (streamNames.take i)
        (name :: streamNames.drop (i + 1)) 0 { dm with m_DebugMode := true } hnot
      rw [← hsplit] at happ
      refine ⟨k, Nat.le_of_lt hki, ?_⟩
      rw [happ, ← hprefix, List.take_take, Nat.min_eq_left (Nat.le_of_lt hki)]
  · intro dm1 port hport hreach
    obtain ⟨hiter, hdebug, hgo⟩ :=
      hbody { dm with m_DebugMode := true } dm1 port rfl hport hreach
    have hd : dm1.m_DebugMode = true := hdebug
    rw [hd] at hiter
    simp only [if_true] at hiter
    rw [hcall, hgo, openLoop_cons_stop env mode paramsVector i name _ dm1
      (by rw [hiter]; simp), hiter]
  · intro dm1 port hport hreach
    obtain ⟨hiter, hdebug, hgo⟩ :=
      hbody { dm with m_DebugMode := false } dm1 port rfl hport hreach
    have hd : dm1.m_DebugMode = false := hdebug
    rw [hd] at hiter
    simp only [Bool.false_eq_true, if_false] at hiter
    exact ⟨hiter, by rw [hcall, hgo, openLoop_cons_ok env mode paramsVector i name _ dm1 dm1 hiter]⟩
  · intro dm1 e hport
    rw [openChannel_eq env mode paramsVector dm1 i name params hparams, hport]

/-- An instance of C5 as amended: the second of two channels asks for the
library mdtm, on port 12306. -/
theorem OpenWANTransports_unsupported_library_witness :
    isZmq (GetStringParameter (sampleParams "mdtm") "Library"
        (DataMan.idle false).m_DefaultLibrary).2 = false
    ∧ calculatePort Env.sample 1
        (GetStringParameter (sampleParams "mdtm") "Port" Env.sample.default_value).2
        = PortResult.number "12306"
    ∧ ((DataMan.idle true).OpenWANTransports Env.sample ["s0", "s1"] Mode.Write
        [sampleParams "zmq", sampleParams "mdtm"] false).status ≠ Status.ok
    ∧ (DataMan.idle true).OpenWANTransports Env.sample ["s0", "s1"] Mode.Write
        [sampleParams "zmq", sampleParams "mdtm"] false
      = ⟨((DataMan.idle true).OpenWANTransports Env.sample ["s0"] Mode.Write
            [sampleParams "zmq"] false).state,
          Status.raised (unsupportedLibrary "mdtm")⟩
    ∧ (DataMan.idle false).OpenWANTransports Env.sample ["s0", "s1"] Mode.Write
        [sampleParams "zmq", sampleParams "mdtm"] false
      = DataMan.openLoop Env.sample Mode.Write [sampleParams "zmq", sampleParams "mdtm"] 2 []
          oneWriteChannel := by
  have h := OpenWANTransports_unsupported_library Env.sample (DataMan.idle false) ["s0", "s1"]
    Mode.Write [sampleParams "zmq", sampleParams "mdtm"] false 1 "s1" (sampleParams "mdtm")
    rfl rfl (by decide)
  exact ⟨by decide, by decide, h.1,
    h.2.2.2.1 ((DataMan.idle true).OpenWANTransports Env.sample ["s0"] Mode.Write
      [sampleParams "zmq"] false).state "12306" (by decide) (by decide),
    (h.2.2.2.2.1 oneWriteChannel "12306" (by decide) (by decide)).2⟩

/-! ## Port and address of a channel -/

end transportman

namespace core
namespace engine

/-! ## The first step on the other ranks -/

theorem serializeRequests_rank (h : Helper) (dump : List (String × Request) → String)
    (r : SscReader) :
    (r.SerializeRequests h dump).state.m_ReaderRank = r.m_ReaderRank := by
  unfold SscReader.SerializeRequests
  split <;> rfl

/-- On every rank other than 0 the first BeginStep of a reader in its initial
state does not return: SerializeRequests throws, or the exchange goes on to
SyncRequests, which is undefined there; further calls are never reached. -/
theorem BeginStep_nonroot (h : Helper) (dump : List (String × Request) → String)
    (peerSizes : List Nat) (r : SscReader) (hfresh : r.m_InitialStep = true)
    (hrank : r.m_ReaderRank ≠ 0) :
    (r.BeginStep h dump peerSizes).1.status ≠ Status.ok
    ∧ ((SscReader.SerializeRequests h dump { r with m_InitialStep := false }).status = Status.ok
        → (r.BeginStep h dump peerSizes).1.status = Status.undefined
          ∧ (r.BeginStep h dump peerSizes).2 = [Call.SerializeRequests, Call.SyncRequests])
    ∧ ∀ n : Nat, SscReader.BeginSteps h dump peerSizes (n + 1) r = r.BeginStep h dump peerSizes := by
  have hsame := serializeRequests_rank h dump { r with m_InitialStep := false }
  have hstep : (r.BeginStep h dump peerSizes).1.status ≠ Status.ok
      ∧ ((SscReader.SerializeRequests h dump { r with m_InitialStep := false }).status
          = Status.ok
        → (r.BeginStep h dump peerSizes).1.status = Status.undefined
          ∧ (r.BeginStep h dump peerSizes).2 = [Call.SerializeRequests, Call.SyncRequests]) := by
    unfold SscReader.BeginStep
    rw [if_pos hfresh]
    cases hser : SscReader.SerializeRequests h dump { r with m_InitialStep := false } with
    | mk r1 st =>
      rw [hser] at hsame
      simp only at hsame
      have hrank1 : r1.m_ReaderRank ≠ 0 := by rw [hsame]; exact hrank
      cases st with
      | ok =>
        simp only []
        rw [SyncRequests_nonroot _ r1 hrank1]
        simp
      | raised e => simp
      | undefined => simp
  refine ⟨hstep.1, hstep.2, ?_⟩
  intro n
  rw [SscReader.BeginSteps]
  cases hrun : r.BeginStep h dump peerSizes with
  | mk out calls =>
    cases out with
    | mk r1 st =>
      have hnot := hstep.1
      rw [hrun] at hnot
      cases st with
      | ok => exact absurd rfl hnot
      | raised e => rfl
      | undefined => rfl

/-- C12 fails on the code: on rank 1 of two readers, freshly constructed on
the metadata of the two valid entries, the first BeginStep clears the flag and
makes the request exchange, but its SyncRequests reads maxSize, which the
reduction to root 0 leaves unwritten on every rank other than 0 (the defect
of C15). Whatever the other rank sends, the first call is undefined, and so
is every run of n + 1 calls: no later call is reached, so that there is no
counter that has advanced by n and no exchange that has been performed. -/
theorem BeginStep_nonroot_undefined :
    (SscReader.constructed 1 2).m_InitialStep = true
    ∧ (SscReader.constructed 1 2).m_CurrentStep = 0
    ∧ (SscReader.constructed 1 2).m_ReaderRank = 1
    ∧ ∀ peerSizes : List Nat,
        ((SscReader.constructed 1 2).BeginStep Helper.sample sampleDump peerSizes).1.status
          = Status.undefined
        ∧ ((SscReader.constructed 1 2).BeginStep Helper.sample sampleDump peerSizes).2
          = [Call.SerializeRequests, Call.SyncRequests]
        ∧ ∀ n : Nat,
            (SscReader.BeginSteps Helper.sample sampleDump peerSizes (n + 1)
              (SscReader.constructed 1 2)).1.status = Status.undefined := by
  refine ⟨by decide, by decide, by decide, ?_⟩
  intro peerSizes
  have hgeneral := BeginStep_nonroot Helper.sample sampleDump peerSizes
    (SscReader.constructed 1 2) (by decide) (by decide)
  have hfirst := hgeneral.2.1 (by decide)
  refine ⟨hfirst.1, hfirst.2, ?_⟩
  intro n
  rw [hgeneral.2.2 n]
  exact hfirst.1

end engine
end core

end adios2
